import Mathlib

/-!
Verification of the medicAgent orchestration/collaboration/scheduling core.

This file gives a shallow embedding, in Lean 4, of the TypeScript functions of
the repository that the checked claims are about:

* `src/backend/src/agents/specialized/notification/types.ts`
  (`evaluatePolicy`, `pickRecipients`, `pickBody`, `pickTimezone`,
  `pickSchedule`, `inferDateTimeFromMessage`, `nextWeekday`,
  `renderTemplate`, `durationToMs`, `generateIdempotencyKey`, `buildPlan`)
* `src/backend/src/agents/graph/SimpleAgentGraph.ts`
  (graph stages, error handlers, collaboration strategies and merges)
* `src/backend/src/agents/router/intent-routing.ts` and `RouterAgent.ts`
  (route table, block guards, router dispatch)
* `src/backend/src/agents/tools/notification.ts` (`findMatchingPlanTool`)

Modelling conventions, used throughout:

* JS `number` timestamps (milliseconds since the Unix epoch) are `Int`.
  Wall-clock reads (`Date.now()`, `new Date()`) are threaded as an explicit
  `now : Int` parameter; within one evaluation all reads observe the same
  instant.  The process-local timezone that backs `Date.prototype.setHours`,
  `getDay`, `setDate` is modelled as a fixed offset `off : Int` in
  milliseconds east of UTC (no DST transitions).
* JS objects used as string-keyed bags are association lists
  (`List (String × JVal)`); object spread is `jsSpread`, property access is
  `List.lookup`.
* Fallible calls (`await x()` that may throw) are `Except String α`; the
  thrown value is modelled by the message string that `${error}` would
  interpolate.
* External effects (queue, store, LLM) are parameters: a stage that consults
  the LLM takes the decision as an input, a handler invocation is an
  `Except String` outcome supplied by the caller.
-/

set_option maxRecDepth 10000

namespace MedicAgent

/-! ## JS primitives -/

/-- Truthiness of an optional JS string (`undefined`, `null` and `""` are
falsy, every other string is truthy). -/
def strTruthy : Option String → Bool
  | none => false
  | some s => s ≠ ""

/-- `x || fallback` for an optional JS string. -/
def strOrElse (x : Option String) (fallback : String) : String :=
  match x with
  | some s => if s = "" then fallback else s
  | none => fallback

/-- JS values stored in `sharedData`-style bags.  Objects carried opaquely
(schedules, plans) are `jobj` with a tag naming their payload. -/
inductive JVal where
  | jbool : Bool → JVal
  | jnum : Int → JVal
  | jstr : String → JVal
  | jobj : String → JVal
  deriving DecidableEq, Repr

/-- JS truthiness of a `JVal`; any object is truthy. -/
def JVal.truthy : JVal → Bool
  | .jbool b => b
  | .jnum n => n ≠ 0
  | .jstr s => s ≠ ""
  | .jobj _ => true

/-- A JS object used as a string-keyed bag. -/
abbrev JObj := List (String × JVal)

/-- Property read `o?.k`: `none` models `undefined`. -/
def JObj.get (o : JObj) (k : String) : Option JVal :=
  o.lookup k

/-- `Boolean(o?.k)`. -/
def JObj.truthyKey (o : JObj) (k : String) : Bool :=
  match o.lookup k with
  | some v => v.truthy
  | none => false

/-- `k in o` at the level of key sets. -/
def JObj.hasKey (o : JObj) (k : String) : Bool :=
  (o.lookup k).isSome

/-- Object spread `{...a, ...b}`: the key set is the union, `b` wins on
collisions.  Keys of `a` that `b` overrides are dropped from `a`'s segment so
that `lookup` (first hit) agrees with JS property access. -/
def jsSpread (a b : JObj) : JObj :=
  a.filter (fun p => (b.lookup p.1).isNone) ++ b

theorem jsSpread_lookup (a b : JObj) (k : String) :
    (jsSpread a b).lookup k = (b.lookup k).or (a.lookup k) := by
  unfold jsSpread
  induction a with
  | nil =>
    simp
  | cons p a ih =>
    obtain ⟨pk, pv⟩ := p
    simp only [List.filter_cons]
    cases hbp : (b.lookup pk).isNone with
    | true =>
      simp only [hbp, if_true, List.cons_append, List.lookup_cons]
      cases hk : k == pk with
      | true =>
        have hk2 : k = pk := by simpa using hk
        subst hk2
        have hb : b.lookup k = none := by simpa using hbp
        simp [hb]
      | false =>
        simpa using ih
    | false =>
      simp only [hbp, Bool.false_eq_true, if_false]
      rw [ih]
      cases hk : k == pk with
      | true =>
        have hk2 : k = pk := by simpa using hk
        subst hk2
        obtain ⟨v, hv⟩ : ∃ v, b.lookup k = some v := by
          cases hb : b.lookup k with
          | none => rw [hb] at hbp; simp at hbp
          | some v => exact ⟨v, rfl⟩
        simp [hv, List.lookup_cons]
      | false =>
        simp [List.lookup_cons, hk]

/-- Membership of a key in the spread is the union of memberships. -/
theorem jsSpread_hasKey (a b : JObj) (k : String) :
    (jsSpread a b).hasKey k = (a.hasKey k || b.hasKey k) := by
  unfold JObj.hasKey
  unfold jsSpread at *
  rw [show (List.filter (fun p => (b.lookup p.1).isNone) a ++ b).lookup k
        = (b.lookup k).or (a.lookup k) from jsSpread_lookup a b k]
  cases hb : b.lookup k <;> cases ha : a.lookup k <;> simp [hb, ha]

/-! ## The JS `Date` model

An instant is an `Int` of epoch milliseconds.  Local civil fields are those
of the instant shifted by the fixed offset `off` (milliseconds east of UTC).
-/

def msPerMinute : Int := 60000

def msPerHour : Int := 3600000

def msPerDay : Int := 86400000

/-- Epoch milliseconds of the start of the local civil day containing `t`. -/
def localDayStart (off t : Int) : Int :=
  (t + off) / msPerDay * msPerDay - off

/-- `d.setSeconds(0, 0)`: zero the seconds and milliseconds fields. -/
def jsSetSecondsZero (off t : Int) : Int :=
  (t + off) / msPerMinute * msPerMinute - off

/-- `d.setMinutes(m)`: replace the minutes field, keeping the local hour
start and the sub-minute remainder; out-of-range values normalize by
carrying into the hours, exactly as in JS. -/
def jsSetMinutes (off t m : Int) : Int :=
  (t + off) / msPerHour * msPerHour + m * msPerMinute
    + (t + off) % msPerMinute - off

/-- `d.setHours(h)`: replace the hours field, keeping the local day start
and the sub-hour remainder, with JS normalization by summation. -/
def jsSetHours (off t h : Int) : Int :=
  (t + off) / msPerDay * msPerDay + h * msPerHour
    + (t + off) % msPerHour - off

/-- `d.setHours(h, m, 0, 0)`. -/
def jsSetHMS0 (off t h m : Int) : Int :=
  (t + off) / msPerDay * msPerDay + h * msPerHour + m * msPerMinute - off

/-- `d.getDay()`: local day of week, Sunday = 0 (1970-01-01 was a Thursday). -/
def jsGetDay (off t : Int) : Int :=
  ((t + off) / msPerDay + 4) % 7

/-- `nextWeekday` from `notification/types.ts`: the next strictly-future
local calendar day (1..7 days ahead) falling on `targetWeekday`;
`setDate(getDate() + delta)` is a plain shift by whole days under a fixed
offset. -/
def nextWeekday (off from_ targetWeekday : Int) : Int :=
  let curr := jsGetDay off from_
  let delta := targetWeekday - curr
  let delta := if delta ≤ 0 then delta + 7 else delta
  from_ + delta * msPerDay

/-! ## `Date.prototype.toISOString`

UTC civil fields, printed as `YYYY-MM-DDTHH:MM:SS.sssZ`.  The year/month/day
split uses the standard civil-from-days conversion.
-/

/-- Civil (year, month, day) of a count of days since 1970-01-01. -/
def civilFromDays (z0 : Int) : Int × Int × Int :=
  let z := z0 + 719468
  let era := z / 146097
  let doe := z - era * 146097
  let yoe := (doe - doe / 1460 + doe / 36524 - doe / 146096) / 365
  let y := yoe + era * 400
  let doy := doe - (365 * yoe + yoe / 4 - yoe / 100)
  let mp := (5 * doy + 2) / 153
  let d := doy - (153 * mp + 2) / 5 + 1
  let m := mp + (if mp < 10 then 3 else -9)
  (y + (if m ≤ 2 then 1 else 0), m, d)

/-- Decimal digits of `n`, left-padded with zeros to width `w`. -/
def padNat (w : Nat) (n : Nat) : String :=
  let s := toString n
  String.mk (List.replicate (w - s.length) '0') ++ s

/-- `new Date(t).toISOString()` for the instants this codebase produces
(years 0..9999). -/
def isoOfMillis (t : Int) : String :=
  let days := t / msPerDay
  let msod := (t % msPerDay).toNat
  let ymd := civilFromDays days
  let hh := msod / 3600000
  let mi := msod % 3600000 / 60000
  let ss := msod % 60000 / 1000
  let mmm := msod % 1000
  padNat 4 ymd.1.toNat ++ "-" ++ padNat 2 ymd.2.1.toNat ++ "-"
    ++ padNat 2 ymd.2.2.toNat ++ "T" ++ padNat 2 hh ++ ":" ++ padNat 2 mi
    ++ ":" ++ padNat 2 ss ++ "." ++ padNat 3 mmm ++ "Z"

/-! ## Pattern scanners

Faithful implementations of the JS regexes used by the notification parser,
as leftmost-first matchers over the character list of the (lowercased)
message.  `\w` is `[A-Za-z0-9_]`, `\s` is whitespace, `\b` holds where
exactly one neighbouring position is a word character.
-/

def isWordCharJs (c : Char) : Bool :=
  c.isAlphanum || c = '_'

def isJsSpace (c : Char) : Bool :=
  c = ' ' || c = '\t' || c = '\n' || c = '\r' || c = '\x0b' || c = '\x0c'

def wordOpt : Option Char → Bool
  | some c => isWordCharJs c
  | none => false

/-- Drop a literal word from the front, or fail. -/
def dropLit : List Char → List Char → Option (List Char)
  | [], cs => some cs
  | _, [] => none
  | w :: ws, c :: cs => if c = w then dropLit ws cs else none

def digitsToNat (ds : List Char) : Nat :=
  ds.foldl (fun n c => n * 10 + (c.toNat - '0'.toNat)) 0

/-- `String.prototype.trim`, over the character list (ASCII whitespace;
the exotic Unicode space classes do not occur in this system). -/
def jsTrim (s : String) : String :=
  String.mk (((s.data.dropWhile isJsSpace).reverse.dropWhile isJsSpace).reverse)

/-- Literal string test replacing `String.startsWith`, which does not
reduce in the kernel. -/
def startsWithLit (s pre : String) : Bool :=
  (dropLit pre.data s.data).isSome


inductive Meridiem where
  | am
  | pm
  deriving DecidableEq, Repr

/-- Capture groups of `/\bat\s+(\d{1,2})(?::(\d{2}))?\s*(am|pm)?\b/`. -/
structure TimeGroups where
  hourRaw : Nat
  minutes : Option Nat
  meridiem : Option Meridiem
  deriving DecidableEq, Repr

/-- `(am|pm)?\b` tried at one position; `prev` is the character just before
`cs`.  Alternation order is `am`, `pm`, empty, each guarded by the trailing
word boundary. -/
def merAttempt (prev : Char) (cs : List Char) : Option (Option Meridiem) :=
  match cs with
  | 'a' :: 'm' :: r =>
    if !(wordOpt r.head?) then some (some .am)
    else if wordOpt (some prev) != wordOpt cs.head? then some none else none
  | 'p' :: 'm' :: r =>
    if !(wordOpt r.head?) then some (some .pm)
    else if wordOpt (some prev) != wordOpt cs.head? then some none else none
  | _ =>
    if wordOpt (some prev) != wordOpt cs.head? then some none else none

/-- `\s*(am|pm)?\b` with the greedy backtracking of `\s*`: deepest position
(most whitespace consumed) is tried first. -/
def merScan (prev : Char) (cs : List Char) : Option (Option Meridiem) :=
  match cs with
  | c :: rest =>
    if isJsSpace c then
      match merScan c rest with
      | some r => some r
      | none => merAttempt prev cs
    else merAttempt prev cs
  | [] => merAttempt prev []

/-- `(?::(\d{2}))?\s*(am|pm)?\b` after the hour digits; `lastDigit` is the
final hour digit (the previous character).  The optional minutes group is
tried first (greedy) and dropped on failure. -/
def colonMerMatch (lastDigit : Char) (cs : List Char) : Option (Option Nat × Option Meridiem) :=
  let withColon : Option (Option Nat × Option Meridiem) :=
    match cs with
    | ':' :: m1 :: m2 :: r =>
      if m1.isDigit && m2.isDigit then
        match merScan m2 r with
        | some mer => some (some (digitsToNat [m1, m2]), mer)
        | none => none
      else none
    | _ => none
  match withColon with
  | some res => some res
  | none =>
    match merScan lastDigit cs with
    | some mer => some (none, mer)
    | none => none

/-- The body after the literal `at`: `\s+(\d{1,2})...`; the hour group is
greedy (two digits before one). -/
def timeTailMatch (cs : List Char) : Option TimeGroups :=
  let sp := cs.span isJsSpace
  if sp.1.isEmpty then none
  else
    match sp.2 with
    | c1 :: c2 :: r =>
      if c1.isDigit && c2.isDigit then
        match colonMerMatch c2 r with
        | some (mins, mer) => some ⟨digitsToNat [c1, c2], mins, mer⟩
        | none =>
          match colonMerMatch c1 (c2 :: r) with
          | some (mins, mer) => some ⟨digitsToNat [c1], mins, mer⟩
          | none => none
      else if c1.isDigit then
        match colonMerMatch c1 (c2 :: r) with
        | some (mins, mer) => some ⟨digitsToNat [c1], mins, mer⟩
        | none => none
      else none
    | [c1] =>
      if c1.isDigit then
        match colonMerMatch c1 [] with
        | some (mins, mer) => some ⟨digitsToNat [c1], mins, mer⟩
        | none => none
      else none
    | [] => none

/-- First match of `/\bat\s+(\d{1,2})(?::(\d{2}))?\s*(am|pm)?\b/`. -/
def scanTime (prev : Option Char) (cs : List Char) : Option TimeGroups :=
  match cs with
  | [] => none
  | c :: rest =>
    let tryHere : Option TimeGroups :=
      if wordOpt prev then none
      else
        match cs with
        | 'a' :: 't' :: r => timeTailMatch r
        | _ => none
    match tryHere with
    | some g => some g
    | none => scanTime (some c) rest

/-- Test of `\b<word>\b` anywhere in the text. -/
def scanWord (w : List Char) (prev : Option Char) (cs : List Char) : Bool :=
  match cs with
  | [] => false
  | c :: rest =>
    let hereOk : Bool :=
      if wordOpt prev then false
      else
        match dropLit w cs with
        | some r => !(wordOpt r.head?)
        | none => false
    if hereOk then true else scanWord w (some c) rest

inductive RelUnit where
  | minute
  | hour
  | day
  deriving DecidableEq, Repr

/-- Unit alternation `(minute|minutes|hour|hours|day|days)\b`, in regex
order. -/
def relUnitMatch (cs : List Char) : Option RelUnit :=
  let tryOne : List Char → Option Unit := fun w =>
    match dropLit w cs with
    | some r => if !(wordOpt r.head?) then some () else none
    | none => none
  if (tryOne "minute".data).isSome then some .minute
  else if (tryOne "minutes".data).isSome then some .minute
  else if (tryOne "hour".data).isSome then some .hour
  else if (tryOne "hours".data).isSome then some .hour
  else if (tryOne "day".data).isSome then some .day
  else if (tryOne "days".data).isSome then some .day
  else none

/-- Body after the literal `in`: `\s+(\d+)\s*(minute|...)\b`. -/
def relTailMatch (cs : List Char) : Option (Nat × RelUnit) :=
  let sp := cs.span isJsSpace
  if sp.1.isEmpty then none
  else
    let ds := sp.2.span Char.isDigit
    if ds.1.isEmpty then none
    else
      let sp2 := ds.2.span isJsSpace
      match relUnitMatch sp2.2 with
      | some u => some (digitsToNat ds.1, u)
      | none => none

/-- First match of `/\bin\s+(\d+)\s*(minute|minutes|hour|hours|day|days)\b/`. -/
def scanRel (prev : Option Char) (cs : List Char) : Option (Nat × RelUnit) :=
  match cs with
  | [] => none
  | c :: rest =>
    let tryHere : Option (Nat × RelUnit) :=
      if wordOpt prev then none
      else
        match cs with
        | 'i' :: 'n' :: r => relTailMatch r
        | _ => none
    match tryHere with
    | some g => some g
    | none => scanRel (some c) rest

/-- Weekday alternation, in regex order, mapped to JS `getDay` numbers. -/
def weekdayMatch (cs : List Char) : Option Nat :=
  let tryOne : List Char → Bool := fun w =>
    match dropLit w cs with
    | some r => !(wordOpt r.head?)
    | none => false
  if tryOne "monday".data then some 1
  else if tryOne "tuesday".data then some 2
  else if tryOne "wednesday".data then some 3
  else if tryOne "thursday".data then some 4
  else if tryOne "friday".data then some 5
  else if tryOne "saturday".data then some 6
  else if tryOne "sunday".data then some 0
  else none

/-- Body after the literal `next`: `\s+(monday|...)\b`. -/
def wdTailMatch (cs : List Char) : Option Nat :=
  let sp := cs.span isJsSpace
  if sp.1.isEmpty then none else weekdayMatch sp.2

/-- First match of `/\bnext\s+(monday|...|sunday)\b/`. -/
def scanNextWeekday (prev : Option Char) (cs : List Char) : Option Nat :=
  match cs with
  | [] => none
  | c :: rest =>
    let tryHere : Option Nat :=
      if wordOpt prev then none
      else
        match dropLit "next".data cs with
        | some r => wdTailMatch r
        | none => none
    match tryHere with
    | some g => some g
    | none => scanNextWeekday (some c) rest

/-! ## `inferDateTimeFromMessage` and friends (notification/types.ts) -/

/-- The `extractTime` closure: apply the captured time-of-day to `base` by
`setSeconds(0,0)`, `setMinutes(minute)`, `setHours(hour)`, with 12-hour
conversion when a meridiem was captured. -/
def extractTime (off : Int) (tm : Option TimeGroups) (base : Int) : Int :=
  match tm with
  | none => base
  | some g =>
    let minute : Int := (g.minutes.getD 0 : Nat)
    let hour : Int :=
      match g.meridiem with
      | some .am => (g.hourRaw : Int) % 12
      | some .pm => (g.hourRaw : Int) % 12 + 12
      | none => (g.hourRaw : Int)
    jsSetHours off (jsSetMinutes off (jsSetSecondsZero off base) minute) hour

/-- `inferDateTimeFromMessage`: the natural-language fallback parser.
Returns the inferred instant, or `none` when no pattern matches.  `off` is
the process timezone offset and `now` the single wall-clock read. -/
def inferDateTimeFromMessage (off now : Int) (message : String) : Option Int :=
  let text := message.data.map Char.toLower
  let timeMatch := scanTime none text
  if scanWord "tomorrow".data none text then
    let base := now + msPerDay
    match timeMatch with
    | some _ => some (extractTime off timeMatch base)
    | none => some (jsSetHMS0 off base 9 0)
  else
    match scanRel none text with
    | some (n, u) =>
      let ms : Int :=
        match u with
        | .minute => (n : Int) * msPerMinute
        | .hour => (n : Int) * msPerHour
        | .day => (n : Int) * msPerDay
      some (now + ms)
    | none =>
      match scanNextWeekday none text with
      | some target =>
        let base := nextWeekday off now (target : Int)
        match timeMatch with
        | some _ => some (extractTime off timeMatch base)
        | none => some (jsSetHMS0 off base 9 0)
      | none =>
        match timeMatch with
        | some _ =>
          let todayAt := extractTime off timeMatch now
          if todayAt > now then some todayAt
          else some (extractTime off timeMatch (now + msPerDay))
        | none => none

/-- `durationToMs`: parser for `/^P(?:(\d+)D)?(?:T(?:(\d+)H)?(?:(\d+)M)?)?$/`;
`none` models the thrown `invalid duration` error. -/
def durationToMs (iso : String) : Option Int :=
  let numThen : Char → List Char → Nat × List Char := fun suffixChar cs =>
    let ds := cs.span Char.isDigit
    if ds.1.isEmpty then (0, cs)
    else if ds.2.head? = some suffixChar then (digitsToNat ds.1, ds.2.tail)
    else (0, cs)
  match iso.data with
  | 'P' :: r =>
    let dd := numThen 'D' r
    let rest :=
      match dd.2 with
      | 'T' :: r2 =>
        let hh := numThen 'H' r2
        let mm := numThen 'M' hh.2
        some (dd.1, hh.1, mm.1, mm.2)
      | r1 => some (dd.1, 0, 0, r1)
    match rest with
    | some (days, hours, mins, leftover) =>
      if leftover.isEmpty then
        some ((((days * 24 + hours) * 60 + mins) : Nat) * 60000)
      else none
    | none => none
  | _ => none

/-! ## SHA-256 and the idempotency key

`generateIdempotencyKey` is `sha256(JSON.stringify(data)).hex.slice(0, 32)`.
SHA-256 is implemented over `Nat` with explicit reduction mod `2^32`.
-/

def m32 (n : Nat) : Nat := n % 4294967296

def rotr32 (x n : Nat) : Nat :=
  m32 ((x >>> n) ||| (x <<< (32 - n)))

/-- The 64 SHA-256 round constants (decimal). -/
def sha256K : List Nat :=
  [1116352408, 1899447441, 3049323471, 3921009573, 961987163,
   1508970993, 2453635748, 2870763221, 3624381080, 310598401,
   607225278, 1426881987, 1925078388, 2162078206, 2614888103,
   3248222580, 3835390401, 4022224774, 264347078, 604807628,
   770255983, 1249150122, 1555081692, 1996064986, 2554220882,
   2821834349, 2952996808, 3210313671, 3336571891, 3584528711,
   113926993, 338241895, 666307205, 773529912, 1294757372,
   1396182291, 1695183700, 1986661051, 2177026350, 2456956037,
   2730485921, 2820302411, 3259730800, 3345764771, 3516065817,
   3600352804, 4094571909, 275423344, 430227734, 506948616,
   659060556, 883997877, 958139571, 1322822218, 1537002063,
   1747873779, 1955562222, 2024104815, 2227730452, 2361852424,
   2428436474, 2756734187, 3204031479, 3329325298]

/-- UTF-8 encoding of one code point. -/
def utf8EncodeCp (n : Nat) : List Nat :=
  if n < 0x80 then [n]
  else if n < 0x800 then
    [0xC0 ||| (n >>> 6), 0x80 ||| (n &&& 0x3F)]
  else if n < 0x10000 then
    [0xE0 ||| (n >>> 12), 0x80 ||| ((n >>> 6) &&& 0x3F), 0x80 ||| (n &&& 0x3F)]
  else
    [0xF0 ||| (n >>> 18), 0x80 ||| ((n >>> 12) &&& 0x3F),
     0x80 ||| ((n >>> 6) &&& 0x3F), 0x80 ||| (n &&& 0x3F)]

def utf8Bytes (s : String) : List Nat :=
  (s.data.map (fun c => utf8EncodeCp c.toNat)).flatten

/-- SHA-256 message padding. -/
def sha256Pad (msg : List Nat) : List Nat :=
  let len := msg.length
  let z := (120 - ((len + 1) % 64)) % 64
  let bitLen := 8 * len
  msg ++ [0x80] ++ List.replicate z 0 ++
    [(bitLen >>> 56) &&& 255, (bitLen >>> 48) &&& 255, (bitLen >>> 40) &&& 255,
     (bitLen >>> 32) &&& 255, (bitLen >>> 24) &&& 255, (bitLen >>> 16) &&& 255,
     (bitLen >>> 8) &&& 255, bitLen &&& 255]

/-- Big-endian 32-bit words of a byte list (length a multiple of 4). -/
def bytesToWords : List Nat → List Nat
  | b0 :: b1 :: b2 :: b3 :: rest =>
    (((b0 <<< 8 ||| b1) <<< 8 ||| b2) <<< 8 ||| b3) :: bytesToWords rest
  | _ => []

/-- 16-word chunks. -/
def wordsToBlocks (ws : List Nat) : List (List Nat) :=
  if h : ws.length < 16 then []
  else
    have : ws.length - 16 < ws.length := by omega
    ws.take 16 :: wordsToBlocks (ws.drop 16)
termination_by ws.length
decreasing_by simpa using this

/-- Message-schedule extension step; `acc` holds the words produced so far,
most recent first. -/
def sha256Extend : Nat → List Nat → List Nat
  | 0, acc => acc.reverse
  | fuel + 1, acc =>
    let g := fun i => acc.getD i 0
    let w15 := g 14
    let w2 := g 1
    let s0 := (rotr32 w15 7) ^^^ (rotr32 w15 18) ^^^ (w15 >>> 3)
    let s1 := (rotr32 w2 17) ^^^ (rotr32 w2 19) ^^^ (w2 >>> 10)
    let w := m32 (g 15 + s0 + g 6 + s1)
    sha256Extend fuel (w :: acc)

/-- One round of the compression function. -/
def sha256Round (st : List Nat) (kw : Nat × Nat) : List Nat :=
  match st with
  | [a, b, c, d, e, f, g, h] =>
    let s1 := (rotr32 e 6) ^^^ (rotr32 e 11) ^^^ (rotr32 e 25)
    let ch := (e &&& f) ^^^ ((4294967295 ^^^ e) &&& g)
    let t1 := m32 (h + s1 + ch + kw.1 + kw.2)
    let s0 := (rotr32 a 2) ^^^ (rotr32 a 13) ^^^ (rotr32 a 22)
    let mj := (a &&& b) ^^^ (a &&& c) ^^^ (b &&& c)
    let t2 := m32 (s0 + mj)
    [m32 (t1 + t2), a, b, c, m32 (d + t1), e, f, g]
  | st => st

/-- Process one 16-word block into the running hash state. -/
def sha256Block (hs : List Nat) (block : List Nat) : List Nat :=
  let w := sha256Extend 48 block.reverse
  let st := (sha256K.zip w).foldl sha256Round hs
  (hs.zip st).map (fun p => m32 (p.1 + p.2))

def sha256Words (s : String) : List Nat :=
  let blocks := wordsToBlocks (bytesToWords (sha256Pad (utf8Bytes s)))
  blocks.foldl sha256Block
    [1779033703, 3144134277, 1013904242, 2773480762,
     1359893119, 2600822924, 528734635, 1541459225]

def hexDigit (n : Nat) : Char :=
  if n < 10 then Char.ofNat ('0'.toNat + n) else Char.ofNat ('a'.toNat + n - 10)

def hex8 (n : Nat) : List Char :=
  [hexDigit ((n >>> 28) &&& 15), hexDigit ((n >>> 24) &&& 15),
   hexDigit ((n >>> 20) &&& 15), hexDigit ((n >>> 16) &&& 15),
   hexDigit ((n >>> 12) &&& 15), hexDigit ((n >>> 8) &&& 15),
   hexDigit ((n >>> 4) &&& 15), hexDigit (n &&& 15)]

/-- `createHash('sha256').update(s).digest('hex').slice(0, 32)`: the first
32 hex characters, i.e. the first four words of the digest. -/
def sha256Hex32 (s : String) : String :=
  String.mk (((sha256Words s).take 4).map hex8).flatten

/-! ## `JSON.stringify` for the idempotency-key record -/

/-- JSON string escaping as performed by `JSON.stringify`. -/
def jsonEscapeChar (c : Char) : List Char :=
  if c = '"' then ['\\', '"']
  else if c = '\\' then ['\\', '\\']
  else if c = '\x08' then ['\\', 'b']
  else if c = '\t' then ['\\', 't']
  else if c = '\n' then ['\\', 'n']
  else if c = '\x0c' then ['\\', 'f']
  else if c = '\r' then ['\\', 'r']
  else if c.toNat < 0x20 then
    ['\\', 'u', '0', '0', hexDigit (c.toNat / 16), hexDigit (c.toNat % 16)]
  else [c]

def jsonStr (s : String) : String :=
  "\"" ++ String.mk (s.data.map jsonEscapeChar).flatten ++ "\""

/-- `repeat` specs (`{cron, tz?, limit?}` of `NotificationPlan`). -/
structure RepeatSpec where
  cron : String
  tz : Option String
  limit : Option Int
  deriving DecidableEq, Repr

/-- `JSON.stringify` of a repeat spec built by `pickSchedule` (insertion
order `cron`, `tz`, `limit`; `undefined` members are omitted). -/
def jsonOfRepeat (r : RepeatSpec) : String :=
  "\x7b\"cron\":" ++ jsonStr r.cron
    ++ (match r.tz with
        | some tz => ",\"tz\":" ++ jsonStr tz
        | none => "")
    ++ (match r.limit with
        | some n => ",\"limit\":" ++ toString n
        | none => "")
    ++ "\x7d"

/-- `JSON.stringify({to, body, scheduleAt, repeat})`: keys in insertion
order, `undefined`-valued keys omitted. -/
def jsonOfKeyData (toField : List String) (body : String)
    (scheduleAt : Option String) (rep : Option RepeatSpec) : String :=
  "\x7b\"to\":[" ++ String.intercalate "," (toField.map jsonStr) ++ "],\"body\":"
    ++ jsonStr body
    ++ (match scheduleAt with
        | some sa => ",\"scheduleAt\":" ++ jsonStr sa
        | none => "")
    ++ (match rep with
        | some r => ",\"repeat\":" ++ jsonOfRepeat r
        | none => "")
    ++ "\x7d"

/-- `generateIdempotencyKey` applied to the record `evaluatePolicy` builds. -/
def generateIdempotencyKey (toField : List String) (body : String)
    (scheduleAt : Option String) (rep : Option RepeatSpec) : String :=
  sha256Hex32 (jsonOfKeyData toField body scheduleAt rep)

/-! ## Notification policy (notification/types.ts) -/

def lbraceChar : Char := Char.ofNat 123

def rbraceChar : Char := Char.ofNat 125

/-- `String(vars[k] ?? '')`; variable values are carried as the strings JS
would coerce them to. -/
def varString (vars : List (String × String)) (k : String) : String :=
  (vars.lookup k).getD ""

/-- `tpl.replace(/\{\{(\w+)\}\}/g, ...)`: scan-and-substitute.  `fuel`
bounds the recursion and is instantiated with the template length, which
every step stays under since each consumes at least one character. -/
def renderSub (vars : List (String × String)) : Nat → List Char → List Char
  | _, [] => []
  | 0, cs => cs
  | fuel + 1, c :: rest =>
    let noMatch := c :: renderSub vars fuel rest
    if c = lbraceChar then
      match rest with
      | c2 :: inner =>
        if c2 = lbraceChar then
          let run := inner.takeWhile isWordCharJs
          let r2 := inner.dropWhile isWordCharJs
          if run.isEmpty then noMatch
          else
            match r2 with
            | d1 :: d2 :: rem =>
              if d1 = rbraceChar && d2 = rbraceChar then
                (varString vars (String.mk run)).data ++ renderSub vars fuel rem
              else noMatch
            | _ => noMatch
        else noMatch
      | [] => noMatch
    else noMatch

/-- `renderTemplate`: the fixed template table with `{{var}}` substitution. -/
def renderTemplate (key : String) (vars : List (String × String)) : String :=
  let templates : List (String × String) :=
    [("reminder.simple",
      "Hi\x7b\x7bname\x7d\x7d, this is your reminder: \x7b\x7btext\x7d\x7d")]
  let tpl := (templates.lookup key).getD ""
  String.mk (renderSub vars tpl.data.length tpl.data)

structure Recipient where
  phoneE164 : String
  name : Option String
  deriving DecidableEq, Repr

/-- The `schedule` tagged union of `NotificationIntent`. -/
inductive Sched where
  | now
  | datetime (iso : String) (timezone : Option String)
  | relative (durationISO8601 : String)
  | cron (expr : String) (timezone : Option String) (limit : Option Int)
  deriving DecidableEq, Repr

/-- `NotificationIntent` (notification/types.ts).  `schedule` is optional
because the runtime value comes from parsed LLM JSON and the policy code
guards for its absence.  The closed TS string unions are carried as
strings; the `variables` record is `vars` because `variables` is reserved. -/
structure NotificationIntent where
  intent : String
  channel : String
  recipients : List Recipient
  schedule : Option Sched
  templateKey : Option String
  message : Option String
  vars : List (String × String)
  timezone : Option String
  deriving DecidableEq, Repr

/-- The parts of `PolicyContext` the policy reads: `defaultTz`, the raw
user utterance `input.message` and `input.metadata?.timezone`. -/
structure PolicyCtx where
  defaultTz : String
  inputMessage : String
  inputMetaTimezone : Option String
  deriving DecidableEq, Repr

structure RetrySpec where
  attempts : Nat
  backoffMs : Nat
  deriving DecidableEq, Repr

/-- `NotificationPlan` (lib/bullmq.ts); the `to` field is `toNums` because
`to` is reserved in Lean. -/
structure NotificationPlan where
  channel : String
  toNums : List String
  body : String
  scheduleAt : Option String
  repeatSpec : Option RepeatSpec
  retry : RetrySpec
  idempotencyKey : String
  labels : Option (List String)
  policyNotes : Option (List String)
  deriving DecidableEq, Repr

/-- `PolicyResult`. -/
inductive PolicyResult where
  | ok (plan : NotificationPlan) (notes : List String)
  | fail (error : String)
  deriving DecidableEq, Repr

def PolicyResult.isOk : PolicyResult → Bool
  | .ok _ _ => true
  | .fail _ => false

def PolicyResult.planOf : PolicyResult → Option NotificationPlan
  | .ok p _ => some p
  | .fail _ => none

def PolicyResult.errorOf : PolicyResult → Option String
  | .ok _ _ => none
  | .fail e => some e

/-- `isFail r msg`: does `r` report exactly this policy failure? -/
def PolicyResult.isFailWith (r : PolicyResult) (msg : String) : Bool :=
  match r with
  | .ok _ _ => false
  | .fail e => e = msg

/-- `forceChannel`: result channel and the note it may add. -/
def forceChannel (i : NotificationIntent) : String × List String :=
  if i.channel ≠ "sms" then ("sms", ["Channel forced to sms."])
  else ("sms", [])

/-- `pickRecipients`: the parsed recipients are ignored — the function
unconditionally returns the hardcoded internal E.164 number (the original
resolution logic is commented out in the source). -/
def pickRecipients (_i : NotificationIntent) : List String :=
  ["+61412345678"]

/-- `pickBody`: explicit message, else template, else the raw utterance;
returns the body and the notes pushed. -/
def pickBody (i : NotificationIntent) (ctx : PolicyCtx) : String × List String :=
  let direct := jsTrim (i.message.getD "")
  if direct ≠ "" then (direct, [])
  else if strTruthy i.templateKey then
    let key := i.templateKey.getD ""
    (jsTrim (renderTemplate key i.vars),
      ["Template(" ++ key ++ ") has been applied."])
  else
    let fallback := jsTrim ctx.inputMessage
    if fallback ≠ "" then (fallback, ["Using original message as fallback."])
    else ("", [])

/-- `pickTimezone`: `intent.timezone || ctx.input.metadata?.timezone ||
ctx.defaultTz` with JS falsiness of the empty string. -/
def pickTimezone (i : NotificationIntent) (ctx : PolicyCtx) : String :=
  strOrElse i.timezone (strOrElse ctx.inputMetaTimezone ctx.defaultTz)

/-- Result record of `pickSchedule`. -/
structure SchedulePick where
  scheduleAt : Option String
  repeatSpec : Option RepeatSpec
  extraNotes : List String
  deriving DecidableEq, Repr

/-- `pickSchedule`: resolve the schedule union into either an absolute
`scheduleAt` instant or a `repeat` spec.  `off`/`now` model the process
timezone and the wall clock. -/
def pickSchedule (off now : Int) (i : NotificationIntent) (tz : String)
    (ctx : PolicyCtx) : SchedulePick :=
  match i.schedule with
  | some (.datetime iso _) => ⟨some iso, none, []⟩
  | some (.relative dur) =>
    (match durationToMs dur with
     | some ms =>
       ⟨some (isoOfMillis (now + ms)), none,
        ["Relative schedule converted to absolute time."]⟩
     | none => ⟨none, none, []⟩)
  | some (.cron expr _ limit) => ⟨none, some ⟨expr, some tz, limit⟩, []⟩
  | some .now =>
    (match inferDateTimeFromMessage off now ctx.inputMessage with
     | some t =>
       if t > now then
         ⟨some (isoOfMillis t), none,
          ["Natural language schedule inferred from utterance."]⟩
       else ⟨some (isoOfMillis now), none, []⟩
     | none => ⟨some (isoOfMillis now), none, []⟩)
  | none =>
    (match inferDateTimeFromMessage off now ctx.inputMessage with
     | some t =>
       if t > now then
         ⟨some (isoOfMillis t), none,
          ["Natural language schedule inferred from utterance."]⟩
       else ⟨some (isoOfMillis now), none, []⟩
     | none => ⟨some (isoOfMillis now), none, []⟩)

def defaultRetry : RetrySpec := ⟨3, 2000⟩

/-- `buildPlan`: conditional spreads drop falsy `scheduleAt` (including the
empty string), absent `repeat`, falsy `label` and empty `notes`. -/
def buildPlan (channel : String) (toNums : List String) (body : String)
    (scheduleAt : Option String) (rep : Option RepeatSpec) (retry : RetrySpec)
    (idempotencyKey : String) (label : String) (notes : List String) :
    NotificationPlan :=
  { channel := channel
    toNums := toNums
    body := body
    scheduleAt := match scheduleAt with
      | some s => if s = "" then none else some s
      | none => none
    repeatSpec := rep
    retry := retry
    idempotencyKey := idempotencyKey
    labels := if label ≠ "" then some [label] else none
    policyNotes := if notes.isEmpty then none else some notes }

/-- `evaluatePolicy` (notification/types.ts, lines 39-77). -/
def evaluatePolicy (off now : Int) (i : NotificationIntent)
    (ctx : PolicyCtx) : PolicyResult :=
  let fc := forceChannel i
  let toNums := pickRecipients i
  if toNums.length = 0 then .fail "No valid recipient phone numbers found."
  else
    let bodyPick := pickBody i ctx
    if bodyPick.1.length = 0 then .fail "Message body is empty."
    else
      let tz := pickTimezone i ctx
      let sp := pickSchedule off now i tz ctx
      let notes := fc.2 ++ bodyPick.2 ++ sp.extraNotes
      let key := generateIdempotencyKey toNums bodyPick.1 sp.scheduleAt
        sp.repeatSpec
      .ok (buildPlan fc.1 toNums bodyPick.1 sp.scheduleAt sp.repeatSpec
        defaultRetry key i.intent notes) notes

/-- The enqueue step of `NotificationAgent.process` (lines 141-165): when
the policy fails, the agent returns before any job-queue call; only the
`ok` branch reaches `enqueueNotificationTool`. -/
def enqueueAttempted (r : PolicyResult) : Bool :=
  r.isOk

/-! ## Orchestration graph (SimpleAgentGraph.ts)

`GraphState` mirrors `AgentGraphState`.  A2A message contents, timestamps
and uuids are not inspected by any stage, so messages carry only their
routing envelope.  Timeline durations (`Date.now()` differences) enter as
parameters.
-/

structure AgentAction where
  type : String
  status : String
  payload : Option (String × String)
  deriving DecidableEq, Repr

/-- `AgentResult` of CollaborationTypes.ts. -/
structure AgentResult where
  reply : String
  actions : List AgentAction
  sharedData : Option JObj
  usageTotalTokens : Option Int
  deriving DecidableEq, Repr

/-- The flat object `RouterAgent.process` resolves with. -/
structure RouterOut where
  route : String
  intent : String
  entities : Option JObj
  multiAgentRequest : Option Bool
  additionalAgents : Option (List String)
  output : AgentResult
  deriving DecidableEq, Repr

structure GraphMessage where
  source : String
  target : String
  mtype : String
  deriving DecidableEq, Repr

structure TimelineEntry where
  step : String
  ms : Int
  intent : Option String
  route : Option String
  usage : Option Int
  deriving DecidableEq, Repr

structure GraphContext where
  intent : Option String
  entities : Option JObj
  sharedData : JObj
  multiAgentRequest : Option Bool
  additionalAgents : Option (List String)
  deriving DecidableEq, Repr

structure GraphState where
  userId : String
  sessionId : String
  originalMessage : String
  metaGoogleToken : Option String
  messages : List GraphMessage
  currentAgent : Option String
  context : GraphContext
  error : Option String
  finalOutput : Option AgentResult
  timeline : List TimelineEntry
  deriving DecidableEq, Repr

/-- `AgentInput` as consumed by the graph. -/
structure GAgentInput where
  userId : String
  sessionId : String
  message : String
  metaGoogleToken : Option String
  deriving DecidableEq, Repr

/-- `createInitialState` (`validateContext({sharedData: {}})` yields an
otherwise empty context). -/
def createInitialState (input : GAgentInput) : GraphState :=
  { userId := input.userId
    sessionId := input.sessionId
    originalMessage := input.message
    metaGoogleToken := input.metaGoogleToken
    messages := []
    currentAgent := none
    context := ⟨none, none, [], none, none⟩
    error := none
    finalOutput := none
    timeline := [] }

/-- `createTimelineEntry`: `intent`/`route`/`usage` keys are added only when
truthy or present. -/
def mkTimelineEntry (step : String) (ms : Int) (intent : Option String)
    (route : Option String) (usage : Option Int) : TimelineEntry :=
  { step := step
    ms := ms
    intent := match intent with
      | some s => if s = "" then none else some s
      | none => none
    route := match route with
      | some s => if s = "" then none else some s
      | none => none
    usage := usage }

/-- `extractUsageFromResult`. -/
def extractUsage (st : GraphState) : Option Int :=
  st.finalOutput.bind (·.usageTotalTokens)

/-- `saveIfReportCandidateOnce`: the report-ingestion side pass.  The
LLM/rule decision `ingest` is an input; on a first positive decision it
marks `context.sharedData.__reportIngested` on the state (the saves
themselves are external effects). -/
def saveIfReportCandidateOnce (ingest : Bool) (st : GraphState) : GraphState :=
  if st.originalMessage = "" then st
  else if !ingest then st
  else if (st.context.sharedData.lookup "__reportIngested").any
      (fun v => v.truthy) then st
  else
    { st with context := { st.context with
        sharedData := jsSpread st.context.sharedData
          [("__reportIngested", JVal.jbool true)] } }

/-- `handleProcessingError`: top-level catch of `process`. -/
def handleProcessingError (e : String) (initialState : GraphState) :
    GraphState :=
  { initialState with
    error := some ("Processing error: " ++ e)
    finalOutput := some
      { reply := "I\x27m sorry, I encountered an error. Please try again."
        actions := [{ type := "error", status := "failed", payload := none }]
        sharedData := none
        usageTotalTokens := none } }

/-- `handleRouterError`. -/
def handleRouterError (e : String) (st : GraphState) : GraphState :=
  { st with
    error := some ("Router error: " ++ e)
    currentAgent := some "error_handler" }

/-- `executeRouter`: dispatch to the router agent, whose outcome (a resolve
or a throw) is the parameter `routerRun`. -/
def executeRouter (routerRun : Except String RouterOut) (st : GraphState) :
    GraphState :=
  match routerRun with
  | .ok r =>
    { st with
      currentAgent := some (if r.route = "" then "chat" else r.route)
      context := { st.context with
        intent := some r.intent
        entities := r.entities
        multiAgentRequest := r.multiAgentRequest
        additionalAgents := r.additionalAgents }
      messages := st.messages ++
        [⟨"router", if r.route = "" then "chat" else r.route, "request"⟩]
      finalOutput := some r.output }
  | .error e => handleRouterError e st

/-- `executeRouterStage`: router dispatch, opportunistic ingestion, then
the timeline entry. -/
def executeRouterStage (ms : Int) (ingest : Bool)
    (routerRun : Except String RouterOut) (st : GraphState) : GraphState :=
  let routerResult := executeRouter routerRun st
  let routerResult := saveIfReportCandidateOnce ingest routerResult
  let entry := mkTimelineEntry "router" ms routerResult.context.intent
    routerResult.currentAgent (extractUsage routerResult)
  { routerResult with timeline := routerResult.timeline ++ [entry] }

/-- `handleSpecializedAgentError`. -/
def handleSpecializedAgentError (agentName e : String) (st : GraphState) :
    GraphState :=
  { st with
    error := some ("Agent execution error in " ++ agentName ++ ": " ++ e)
    currentAgent := some "error_handler" }

/-- The fixed registry built by `initializeAgents`. -/
def agentRegistry : List String :=
  ["router", "appointment", "gp", "notification", "report"]

/-- `executeSpecializedAgent`: look up `currentAgent || 'chat'`, run it
(outcome from `agentRun`), append the response message; a missing agent or
a throwing agent is caught by `handleSpecializedAgentError`. -/
def executeSpecializedAgent (agentRun : String → Except String AgentResult)
    (st : GraphState) : GraphState :=
  let agentName := strOrElse st.currentAgent "chat"
  let outcome : Except String AgentResult :=
    if agentRegistry.contains agentName then agentRun agentName
    else .error ("Error: Agent not found: " ++ agentName)
  match outcome with
  | .ok result =>
    { st with
      messages := st.messages ++ [⟨agentName, "router", "response"⟩]
      finalOutput := some result }
  | .error e => handleSpecializedAgentError agentName e st

/-- `executeSpecializedAgentStage`. -/
def executeSpecializedAgentStage (ms : Int)
    (agentRun : String → Except String AgentResult) (st : GraphState) :
    GraphState :=
  let agentResult := executeSpecializedAgent agentRun st
  let entry := mkTimelineEntry
    ("agent:" ++ strOrElse agentResult.currentAgent "chat") ms none none
    (extractUsage agentResult)
  { agentResult with timeline := agentResult.timeline ++ [entry] }

/-! ### Collaboration rule engine -/

inductive Priority where
  | high
  | medium
  | low
  deriving DecidableEq, Repr

structure CollabRule where
  name : String
  priority : Priority
  cost : Int
  latency : Int
  targetAgent : String
  shouldExecute : JObj → Option String → Option String → Bool

inductive StratType where
  | sequential
  | parallel
  | winnerTakeAll
  | allFinishMerge
  deriving DecidableEq, Repr

def StratType.isParallel : StratType → Bool
  | .parallel => true
  | _ => false

structure ExecutionStrategy where
  stype : StratType
  reason : String

/-- `hasMixedPriorities`: `new Set(priorities).size > 1`. -/
def hasMixedPriorities (rules : List CollabRule) : Bool :=
  ((rules.map (·.priority)).dedup).length > 1

/-- `hasSamePriority`. -/
def hasSamePriority (rules : List CollabRule) : Bool :=
  match rules with
  | [] => false
  | r :: _ =>
    if rules.length ≤ 1 then false
    else rules.all (fun x => x.priority = r.priority)

/-- `determineExecutionStrategy`. -/
def determineExecutionStrategy (rules : List CollabRule) : ExecutionStrategy :=
  if rules.length = 1 then ⟨.sequential, "Single rule execution"⟩
  else if hasMixedPriorities rules then ⟨.winnerTakeAll, "Mixed priority rules"⟩
  else if hasSamePriority rules then ⟨.allFinishMerge, "Same priority rules"⟩
  else ⟨.sequential, "Default sequential execution"⟩

/-- `createCollaborationState`. -/
def createCollaborationState (st : GraphState) (rule : CollabRule) :
    GraphState :=
  { st with
    currentAgent := some rule.targetAgent
    context := { st.context with
      sharedData := jsSpread st.context.sharedData
        ((st.finalOutput.bind (·.sharedData)).getD []) } }

/-- `executeCollaborationRule`: boundary ingestion, derived state, then the
specialized-agent runner. -/
def executeCollaborationRule (ingest : Bool)
    (agentRun : String → Except String AgentResult) (st : GraphState)
    (rule : CollabRule) : GraphState :=
  let st := saveIfReportCandidateOnce ingest st
  executeSpecializedAgent agentRun (createCollaborationState st rule)

/-- `executeSequentialCollaboration`: rules run in order on the cumulative
state; a rule whose invocation throws is skipped.  `invoke` supplies each
invocation's outcome. -/
def executeSequentialCollaboration
    (invoke : GraphState → CollabRule → Except String GraphState)
    (st : GraphState) (rules : List CollabRule) : GraphState :=
  match rules with
  | [] => st
  | rule :: rest =>
    match invoke st rule with
    | .ok result => executeSequentialCollaboration invoke result rest
    | .error _ => executeSequentialCollaboration invoke st rest

/-- The settled value of one winner-take-all / all-finish-merge branch
(`{rule, result, success, error?}`); a throwing invocation settles with the
pre-cascade state and `success := false`, so the promise itself never
rejects. -/
structure CollabResult where
  rule : CollabRule
  result : GraphState
  success : Bool

/-- A branch task: its rule, the invocation outcome, and the wall-clock
instant at which the branch would settle.  The settle time is ignored by
the join and exists to state order-independence. -/
structure BranchTask where
  rule : CollabRule
  outcome : Except String GraphState
  finishMs : Nat

def BranchTask.settle (st : GraphState) (t : BranchTask) : CollabResult :=
  match t.outcome with
  | .ok r => ⟨t.rule, r, true⟩
  | .error _ => ⟨t.rule, st, false⟩

/-- Stable insertion by a `Nat` key (ties keep their original order). -/
def insertByKey (f : α → Nat) (a : α) : List α → List α
  | [] => [a]
  | b :: bs => if f a ≤ f b then a :: b :: bs else b :: insertByKey f a bs

def sortByKey (f : α → Nat) : List α → List α
  | [] => []
  | a :: as => insertByKey f a (sortByKey f as)

/-- Enumerate with positions starting at `i`. -/
def enumFromIdx (i : Nat) : List α → List (Nat × α)
  | [] => []
  | a :: as => (i, a) :: enumFromIdx (i + 1) as

/-- `Promise.allSettled` over the branches: branches complete in wall-clock
order (`finishMs`), but the join delivers the settled values at their input
positions, so the output order is the input order. -/
def promiseAllSettled (st : GraphState) (tasks : List BranchTask) :
    List CollabResult :=
  let indexed := enumFromIdx 0 tasks
  let byTime := sortByKey (fun p => p.2.finishMs) indexed
  let byIdx := sortByKey (fun p => p.1) byTime
  byIdx.map (fun p => p.2.settle st)

/-- `findFirstSuccessfulResult`: first settled value, in input order, whose
invocation succeeded. -/
def findFirstSuccessfulResult (results : List CollabResult) :
    Option CollabResult :=
  results.find? (·.success)

/-- `executeWinnerTakeAllCollaboration` over explicit branch tasks. -/
def executeWinnerTakeAllCollaboration (st : GraphState)
    (tasks : List BranchTask) : GraphState :=
  let results := promiseAllSettled st tasks
  match findFirstSuccessfulResult results with
  | some r => r.result
  | none => st

/-- `mergeSingleResult`. -/
def mergeSingleResult (mergedState result : GraphState) : GraphState :=
  { mergedState with
    messages := mergedState.messages ++ result.messages
    context :=
      { intent := result.context.intent
        entities := result.context.entities
        multiAgentRequest := result.context.multiAgentRequest
        additionalAgents := result.context.additionalAgents
        sharedData := jsSpread
          (jsSpread mergedState.context.sharedData result.context.sharedData)
          ((result.finalOutput.bind (·.sharedData)).getD []) } }

/-- `mergeCollaborationResults`. -/
def mergeCollaborationResults (originalState : GraphState)
    (results : List GraphState) : GraphState :=
  results.foldl mergeSingleResult originalState

/-- `executeAllFinishMergeCollaboration` over explicit branch tasks. -/
def executeAllFinishMergeCollaboration (st : GraphState)
    (tasks : List BranchTask) : GraphState :=
  let results := promiseAllSettled st tasks
  let successfulResults := (results.filter (·.success)).map (·.result)
  mergeCollaborationResults st successfulResults

/-- `executeParallelCollaboration`: semaphore-bounded concurrent execution;
all branches run against the pre-cascade state and failed branches are
excluded from the merge.  The completion order in which `results` is pushed
does not affect the merge inputs here because the merge of this strategy in
the source consumes `results` in completion order; completion order is
modelled by `finishMs` through the same time-sorted schedule. -/
def executeParallelCollaboration (st : GraphState)
    (tasks : List BranchTask) : GraphState :=
  let indexed := enumFromIdx 0 tasks
  let byTime := sortByKey (fun p => p.2.finishMs) indexed
  let pushed := byTime.map (fun p => p.2.settle st)
  let successfulResults := (pushed.filter (·.success)).map (·.result)
  mergeCollaborationResults st successfulResults

/-- The branch tasks the engine spawns: each qualifying rule invoked
against the pre-cascade state, with its settle instant given by the ambient
schedule `ftime`. -/
def branchTasks (invoke : GraphState → CollabRule → Except String GraphState)
    (ftime : CollabRule → Nat) (st : GraphState) (rules : List CollabRule) :
    List BranchTask :=
  rules.map (fun r => ⟨r, invoke st r, ftime r⟩)

/-- `executeCollaborationStrategy`. -/
def executeCollaborationStrategy
    (invoke : GraphState → CollabRule → Except String GraphState)
    (ftime : CollabRule → Nat) (st : GraphState) (rules : List CollabRule)
    (strategy : ExecutionStrategy) : GraphState :=
  match strategy.stype with
  | .sequential => executeSequentialCollaboration invoke st rules
  | .parallel => executeParallelCollaboration st (branchTasks invoke ftime st rules)
  | .winnerTakeAll =>
    executeWinnerTakeAllCollaboration st (branchTasks invoke ftime st rules)
  | .allFinishMerge =>
    executeAllFinishMergeCollaboration st (branchTasks invoke ftime st rules)

/-- `extractSharedData`: `finalOutput?.sharedData || null` (an empty object
is truthy, so `some []` proceeds). -/
def extractSharedData (st : GraphState) : Option JObj :=
  st.finalOutput.bind (·.sharedData)

/-- `getApplicableRules`. -/
def getApplicableRules (rules : List CollabRule) (sharedData : JObj)
    (st : GraphState) : List CollabRule :=
  rules.filter (fun r =>
    r.shouldExecute sharedData st.context.intent st.currentAgent)

/-- `executeGenericCollaboration`: skip for multi-agent requests, extract
shared data, filter rules, pick and run a strategy. -/
def executeGenericCollaboration
    (rules : List CollabRule)
    (invoke : GraphState → CollabRule → Except String GraphState)
    (ftime : CollabRule → Nat) (st : GraphState) : GraphState :=
  if st.context.multiAgentRequest.getD false then st
  else
    match extractSharedData st with
    | none => st
    | some sharedData =>
      let applicableRules := getApplicableRules rules sharedData st
      if applicableRules.isEmpty then st
      else
        executeCollaborationStrategy invoke ftime st applicableRules
          (determineExecutionStrategy applicableRules)

/-- `executeCollaborationStage`: pre-collaboration ingestion, the generic
engine, then the timeline entry. -/
def executeCollaborationStage (ms : Int) (ingest : Bool)
    (rules : List CollabRule)
    (invoke : GraphState → CollabRule → Except String GraphState)
    (ftime : CollabRule → Nat) (st : GraphState) : GraphState :=
  let st1 := saveIfReportCandidateOnce ingest st
  let collab := executeGenericCollaboration rules invoke ftime st1
  { collab with
    timeline := collab.timeline ++ [mkTimelineEntry "collaboration" ms none none none] }

/-- `getCollaborationRules`: the fixed rule list. -/
def notificationToAppointmentRule : CollabRule :=
  { name := "notification-to-appointment"
    priority := .high
    cost := 1
    latency := 1000
    targetAgent := "appointment"
    shouldExecute := fun sharedData _ currentAgent =>
      currentAgent = some "notification"
        && sharedData.truthyKey "notificationSchedule"
        && !(sharedData.truthyKey "appointmentSchedule") }

def appointmentToReportRule : CollabRule :=
  { name := "appointment-to-report"
    priority := .low
    cost := 2
    latency := 2000
    targetAgent := "report"
    shouldExecute := fun sharedData _ currentAgent =>
      currentAgent = some "appointment"
        && sharedData.truthyKey "appointmentSchedule"
        && !(sharedData.truthyKey "reportSchedule") }

def getCollaborationRules : List CollabRule :=
  [notificationToAppointmentRule, appointmentToReportRule]

/-- `SimpleAgentGraph.process`: the three stages with their early error
returns, wrapped in the top-level catch.  `outerThrow` models an exception
raised outside the stage-internal try/catch blocks (the stage glue);
everything the graph calls externally enters through `routerRun`,
`agentRun`, `ingest` and `ftime`. -/
def processGraph (input : GAgentInput) (outerThrow : Option String)
    (routerRun : Except String RouterOut)
    (agentRun : String → Except String AgentResult) (ingest : Bool)
    (ftime : CollabRule → Nat) (msRouter msAgent msCollab : Int) : GraphState :=
  let initialState := createInitialState input
  match outerThrow with
  | some e => handleProcessingError e initialState
  | none =>
    let routerResult := executeRouterStage msRouter ingest routerRun initialState
    if routerResult.error.isSome then routerResult
    else
      let agentResult := executeSpecializedAgentStage msAgent agentRun routerResult
      if agentResult.error.isSome then agentResult
      else
        executeCollaborationStage msCollab ingest getCollaborationRules
          (fun s r => .ok (executeCollaborationRule ingest agentRun s r))
          ftime agentResult

/-! ## Router and intent routing (intent-routing.ts, RouterAgent.ts) -/

def FALLBACK_INTENT : String := "health.advice"

def INTENT_TO_ROUTE : List (String × String) :=
  [("appointment.book", "appointment"),
   ("appointment.check", "appointment"),
   ("report.cognitive.weekly", "report"),
   ("report.generate", "report"),
   ("report.summary", "report"),
   ("report.status", "report"),
   ("health.advice", "gp"),
   ("notification.schedule", "notification")]

/-- `resolveRoute`: table lookup with the `gp` default. -/
def resolveRoute (intent : String) : String :=
  (INTENT_TO_ROUTE.lookup intent).getD "gp"

/-- The `metadata` bag, as far as the guards read it. -/
structure RMeta where
  googleAccessToken : Option String
  deriving DecidableEq, Repr

structure BlockResult where
  blocked : Bool
  reason : Option String
  deriving DecidableEq, Repr

/-- The one entry of `BLOCK_RULES`: `appointment.*` intents are blocked
when the metadata is absent, the token is absent or empty (falsy), or the
token is the `test-token` placeholder. -/
def appointmentGuard (intent : String) (metadata : Option RMeta) :
    BlockResult :=
  let tokenMissing : Bool :=
    match metadata with
    | none => true
    | some m =>
      match m.googleAccessToken with
      | none => true
      | some t => t = "" || t = "test-token"
  if startsWithLit intent "appointment." && tokenMissing then
    ⟨true, some "Google Calendar access is required to manage appointments."⟩
  else ⟨false, none⟩

/-- `AgentInput` as the router and its targets receive it. -/
structure RAgentInput where
  userId : String
  sessionId : String
  message : String
  metadata : Option RMeta
  intent : Option String
  entities : Option JObj
  deriving DecidableEq, Repr

/-- The result of `RouterAgent.classify` (tiered classification; its
internal fallbacks never throw, so the outcome is total). -/
structure Classified where
  intent : String
  entities : Option JObj
  usageTotalTokens : Option Int
  multiAgentRequest : Option Bool
  additionalAgents : Option (List String)
  deriving DecidableEq, Repr

/-- The flat object `RouterAgent.process` returns. -/
structure RouterProcOut where
  route : String
  intent : String
  reply : String
  actions : List AgentAction
  sharedData : Option JObj
  usageTotalTokens : Option Int
  multiAgentRequest : Option Bool
  additionalAgents : Option (List String)
  deriving DecidableEq, Repr

/-- `RouterAgent.process`.  `classified` is the classification outcome,
`handlers` the registry.  The second component is the ghost trace of
handler names whose `process` was invoked, used to state dispatch
suppression. -/
def routerAgentProcess (classified : Classified)
    (handlers : String → Option (RAgentInput → Except String AgentResult))
    (input : RAgentInput) : RouterProcOut × List String :=
  let guardRes := appointmentGuard classified.intent input.metadata
  if guardRes.blocked then
    ({ route := "none"
       intent := "blocked"
       reply := guardRes.reason.getD "Request is blocked by guard rule."
       actions := []
       sharedData := none
       usageTotalTokens := none
       multiAgentRequest := none
       additionalAgents := none }, [])
  else
    let route := resolveRoute classified.intent
    let target := handlers route
    let handlerName := if target.isSome then route else "gp"
    match target.or (handlers "gp") with
    | none =>
      ({ route := "gp"
         intent := classified.intent
         reply := "I\x27m not sure how to help with that yet."
         actions := []
         sharedData := none
         usageTotalTokens := none
         multiAgentRequest := none
         additionalAgents := none }, [])
    | some h =>
      match h { input with
                intent := some classified.intent
                entities := classified.entities } with
      | .ok result =>
        ({ route := route
           intent := classified.intent
           reply := result.reply
           actions := result.actions
           sharedData := result.sharedData
           usageTotalTokens :=
             (result.usageTotalTokens).or classified.usageTotalTokens
           multiAgentRequest :=
             if classified.multiAgentRequest.getD false then some true
             else none
           additionalAgents := classified.additionalAgents }, [handlerName])
      | .error e =>
        ({ route := "gp"
           intent := "error"
           reply := "I\x27m sorry, I encountered an error while processing your request. Please try again."
           actions := [⟨"error", "failed",
             some ("ROUTER_PROCESSING_ERROR", e)⟩]
           sharedData := none
           usageTotalTokens := none
           multiAgentRequest := none
           additionalAgents := none }, [handlerName])

/-! ## Plan matching (tools/notification.ts, `findMatchingPlanTool`) -/

/-- A stored plan record, as far as the matcher reads it:
`p?.notificationId`, `p?.id`, `p?.plan?.when?.iso`, `p?.plan?.schedule?.iso`. -/
structure PlanRec where
  notificationId : Option String
  pid : Option String
  whenIso : Option String
  schedIso : Option String
  deriving DecidableEq, Repr

structure Cand where
  cid : Option String
  plan : PlanRec
  score : Nat
  deriving DecidableEq, Repr

/-- One attempt of `/(\d{1,2})\/(\d{1,2})/` at the head of `cs`, returning
the groups as (month, day) and the suffix after the match. -/
def matchDateAt (cs : List Char) : Option ((Nat × Nat) × List Char) :=
  let afterFirst : Nat → List Char → Option ((Nat × Nat) × List Char) :=
    fun m r =>
      match r with
      | '/' :: d1 :: tail2 =>
        if d1.isDigit then
          match tail2 with
          | d2 :: tail3 =>
            if d2.isDigit then some ((m, digitsToNat [d1, d2]), tail3)
            else some ((m, digitsToNat [d1]), tail2)
          | [] => some ((m, digitsToNat [d1]), [])
        else none
      | _ => none
  match cs with
  | c1 :: rest1 =>
    if c1.isDigit then
      match rest1 with
      | c2 :: rest2 =>
        if c2.isDigit then
          match afterFirst (digitsToNat [c1, c2]) rest2 with
          | some res => some res
          | none => afterFirst (digitsToNat [c1]) rest1
        else afterFirst (digitsToNat [c1]) rest1
      | [] => none
    else none
  | [] => none

/-- `utterance.matchAll(/(\d{1,2})\/(\d{1,2})/g)`: repeated leftmost
matching, resuming after each match.  `fuel` is instantiated with the text
length, which suffices since every step consumes at least one character. -/
def scanDateAux : Nat → List Char → List (Nat × Nat)
  | 0, _ => []
  | _, [] => []
  | fuel + 1, c :: rest =>
    match matchDateAt (c :: rest) with
    | some (md, r) => md :: scanDateAux fuel r
    | none => scanDateAux fuel rest

def scanDateTokens (cs : List Char) : List (Nat × Nat) :=
  scanDateAux cs.length cs

def daysInMonth (y m : Nat) : Nat :=
  if m = 2 then
    if y % 4 = 0 && (y % 100 ≠ 0 || y % 400 = 0) then 29 else 28
  else if m = 4 || m = 6 || m = 9 || m = 11 then 30
  else 31

/-- `new Date(iso).getUTCMonth() + 1` and `.getUTCDate()` for the
`toISOString`-shaped UTC strings this system stores: the fields are read
off the literal text; a string whose date part is not a valid calendar date
is an Invalid Date in JS and never equals a mentioned (month, day), which
`none` models. -/
def parseIsoMonthDay (s : String) : Option (Nat × Nat) :=
  match s.data with
  | y1 :: y2 :: y3 :: y4 :: '-' :: m1 :: m2 :: '-' :: d1 :: d2 :: _ =>
    if y1.isDigit && y2.isDigit && y3.isDigit && y4.isDigit && m1.isDigit
        && m2.isDigit && d1.isDigit && d2.isDigit then
      let y := digitsToNat [y1, y2, y3, y4]
      let m := digitsToNat [m1, m2]
      let d := digitsToNat [d1, d2]
      if 1 ≤ m && m ≤ 12 && 1 ≤ d && d ≤ daysInMonth y m then some (m, d)
      else none
    else none
  | _ => none

/-- Case-insensitive substring test. -/
def containsSub (needle hay : List Char) : Bool :=
  match hay with
  | [] => needle.isEmpty
  | _ :: rest =>
    match dropLit needle hay with
    | some _ => true
    | none => containsSub needle rest

/-- `/appointment|booking|reminder|notification|report/i.test(utterance)`. -/
def hasSchedulingVocab (utterance : String) : Bool :=
  let low := utterance.data.map Char.toLower
  containsSub "appointment".data low || containsSub "booking".data low
    || containsSub "reminder".data low || containsSub "notification".data low
    || containsSub "report".data low

/-- Score one plan.  Scores are in tenths (`1` point = `10`) so that the JS
numbers `0 / 0.1 / 0.5 / 1 / 1.1` — each computed by the same float
expression on every candidate — compare exactly. -/
def candScore (utterance : String) (mds : List (Nat × Nat)) (p : PlanRec) :
    Cand :=
  let idOpt : Option String :=
    if strTruthy p.notificationId then p.notificationId
    else if strTruthy p.pid then p.pid
    else none
  let whenOpt : Option String :=
    if strTruthy p.whenIso then p.whenIso
    else if strTruthy p.schedIso then p.schedIso
    else none
  match idOpt, whenOpt with
  | some id, some wi =>
    let dateScore : Nat :=
      match parseIsoMonthDay wi with
      | some md => if mds.contains md then 10 else 0
      | none => 0
    let textScore : Nat := if hasSchedulingVocab utterance then 1 else 0
    ⟨some id, p, dateScore + textScore⟩
  | _, _ => ⟨none, p, 0⟩

/-- Stable descending insertion by score (`sort((a, b) => b.score -
a.score)` is stable in V8; a stable descending sort is unique, so insertion
sort models it exactly). -/
def insertCandDesc (c : Cand) : List Cand → List Cand
  | [] => [c]
  | x :: xs => if c.score ≥ x.score then c :: x :: xs else x :: insertCandDesc c xs

def sortCandsDesc : List Cand → List Cand
  | [] => []
  | c :: cs => insertCandDesc c (sortCandsDesc cs)

inductive FindResult where
  | okMatch (notificationId : String) (plan : PlanRec)
  | notFound
  | ambiguous (candidates : List Cand)
  | errorRes (msg : String)
  deriving DecidableEq, Repr

/-- The ranked candidate list (mapped, filtered on a truthy id, sorted). -/
def rankCandidates (utterance : String) (mds : List (Nat × Nat))
    (plans : List PlanRec) : List Cand :=
  sortCandsDesc ((plans.map (candScore utterance mds)).filter
    (fun c => c.cid.isSome))

/-- `findMatchingPlanTool`; `plansRes` is the `listUserPlansTool` outcome. -/
def findMatchingPlan (utterance : String)
    (plansRes : Except String (List PlanRec)) : FindResult :=
  match plansRes with
  | .error e => .errorRes e
  | .ok plans =>
    if plans.isEmpty then .notFound
    else
      let mds := scanDateTokens utterance.data
      let candidates := rankCandidates utterance mds plans
      if candidates.isEmpty then .notFound
      else if mds.isEmpty then .notFound
      else
        let lifted :=
          match candidates with
          | c :: rest => (if c.score = 0 then { c with score := 5 } else c) :: rest
          | [] => []
        match lifted with
        | [] => .notFound
        | top :: _ =>
          let ties := lifted.filter (fun c => c.score = top.score)
          if ties.length > 1 then .ambiguous (ties.take 3)
          else .okMatch (top.cid.getD "") top.plan

/-! ## Helper lemmas -/

theorem one_lt_length_of_two_mem {α : Type} {l : List α} {a b : α}
    (ha : a ∈ l) (hb : b ∈ l) (hne : a ≠ b) : 1 < l.length := by
  match l with
  | [] => cases ha
  | [x] =>
    rw [List.mem_singleton] at ha hb
    exact absurd (ha.trans hb.symm) hne
  | x :: y :: t => simp only [List.length_cons]; omega

/-- A pair of rules with different priorities makes `hasMixedPriorities`
fire. -/
theorem hasMixedPriorities_of_ne {rules : List CollabRule} {r1 r2 : CollabRule}
    (h1 : r1 ∈ rules) (h2 : r2 ∈ rules) (hne : r1.priority ≠ r2.priority) :
    hasMixedPriorities rules = true := by
  unfold hasMixedPriorities
  have m1 : r1.priority ∈ (rules.map (·.priority)).dedup := by
    rw [List.mem_dedup]; exact List.mem_map_of_mem _ h1
  have m2 : r2.priority ∈ (rules.map (·.priority)).dedup := by
    rw [List.mem_dedup]; exact List.mem_map_of_mem _ h2
  have := one_lt_length_of_two_mem m1 m2 hne
  simpa using this

/-- All-equal priorities keep `hasMixedPriorities` off. -/
theorem hasMixedPriorities_eq_false {rules : List CollabRule}
    (h : ∀ r1 ∈ rules, ∀ r2 ∈ rules, r1.priority = r2.priority) :
    hasMixedPriorities rules = false := by
  unfold hasMixedPriorities
  suffices hlen : ((rules.map (·.priority)).dedup).length ≤ 1 by simpa using hlen
  by_contra hgt
  push_neg at hgt
  match hd : (rules.map (·.priority)).dedup with
  | [] => rw [hd] at hgt; simp at hgt
  | [x] => rw [hd] at hgt; simp at hgt
  | x :: y :: t =>
    have hnd := List.nodup_dedup (rules.map (·.priority))
    rw [hd] at hnd
    have hxy : x ≠ y := by
      intro hxy
      subst hxy
      exact (List.nodup_cons.mp hnd).1 (List.mem_cons_self _ _)
    have hx : x ∈ rules.map (·.priority) := by
      rw [← List.mem_dedup, hd]; simp
    have hy : y ∈ rules.map (·.priority) := by
      rw [← List.mem_dedup, hd]; simp
    obtain ⟨rx, hrx, hrx2⟩ := List.mem_map.mp hx
    obtain ⟨ry, hry, hry2⟩ := List.mem_map.mp hy
    exact hxy (hrx2 ▸ hry2 ▸ h rx hrx ry hry)

/-! ## C4: strategy selection -/

/-- C4: strategy selection is a deterministic function of the filtered rule
list: a singleton list selects Sequential; a pair of rules with distinct
priorities selects Winner-take-all; several rules all sharing one priority
select All-finish-merge; and no rule list selects Parallel. -/
theorem strategy_selection (rules : List CollabRule) :
    (rules.length = 1 →
      (determineExecutionStrategy rules).stype = .sequential)
    ∧ ((∃ r1 ∈ rules, ∃ r2 ∈ rules, r1.priority ≠ r2.priority) →
      (determineExecutionStrategy rules).stype = .winnerTakeAll)
    ∧ (1 < rules.length →
      (∀ r1 ∈ rules, ∀ r2 ∈ rules, r1.priority = r2.priority) →
      (determineExecutionStrategy rules).stype = .allFinishMerge)
    ∧ (determineExecutionStrategy rules).stype.isParallel = false := by
  refine ⟨?_, ?_, ?_, ?_⟩
  · intro h1
    unfold determineExecutionStrategy
    rw [if_pos h1]
  · rintro ⟨r1, h1, r2, h2, hne⟩
    have hlen : rules.length ≠ 1 := by
      intro hlen
      obtain ⟨a, ha⟩ := List.length_eq_one.mp hlen
      subst ha
      rw [List.mem_singleton] at h1 h2
      exact hne (h1 ▸ h2 ▸ rfl)
    unfold determineExecutionStrategy
    rw [if_neg hlen, if_pos (hasMixedPriorities_of_ne h1 h2 hne)]
  · intro hlen hall
    have hne1 : rules.length ≠ 1 := by omega
    have hsame : hasSamePriority rules = true := by
      match rules, hlen, hall with
      | r :: rest, hlen, hall =>
        show (if (r :: rest).length ≤ 1 then false
          else (r :: rest).all fun x => decide (x.priority = r.priority)) = true
        rw [if_neg (by simp only [List.length_cons] at hlen ⊢; omega)]
        rw [List.all_eq_true]
        intro x hx
        simpa using hall x hx r (List.mem_cons_self _ _)
    unfold determineExecutionStrategy
    rw [if_neg hne1, if_neg (by simp [hasMixedPriorities_eq_false hall]),
      if_pos hsame]
  · unfold determineExecutionStrategy
    split
    · rfl
    · split
      · rfl
      · split
        · rfl
        · rfl

/-- C4 witness: the three selection cases at concrete rule lists, and the
never-Parallel conjunct at the engine's own rule list. -/
theorem strategy_selection_witness :
    (determineExecutionStrategy [notificationToAppointmentRule]).stype
      = .sequential
    ∧ (determineExecutionStrategy getCollaborationRules).stype
      = .winnerTakeAll
    ∧ (determineExecutionStrategy
        [appointmentToReportRule, appointmentToReportRule]).stype
      = .allFinishMerge
    ∧ (determineExecutionStrategy getCollaborationRules).stype.isParallel
      = false :=
  ⟨(strategy_selection _).1 rfl,
   (strategy_selection _).2.1
     ⟨notificationToAppointmentRule, by simp [getCollaborationRules],
      appointmentToReportRule, by simp [getCollaborationRules],
      by simp [notificationToAppointmentRule, appointmentToReportRule]⟩,
   (strategy_selection _).2.2.1 (by simp)
     (by
       intro r1 h1 r2 h2
       simp only [List.mem_cons, List.mem_singleton, List.not_mem_nil,
         or_false] at h1 h2
       rcases h1 with h1 | h1 <;> rcases h2 with h2 | h2 <;>
         simp [h1, h2]),
   (strategy_selection getCollaborationRules).2.2.2⟩

/-! ## C1: recipient resolution and the empty-recipients policy failure -/

/-- Concrete input for the C1 counterexample: an intent with an empty
recipients list and an empty message, evaluated for a request whose raw
utterance is non-empty. -/
def c1Intent : NotificationIntent :=
  ⟨"notify", "sms", [], some .now, none, some "", [], none⟩

def c1Ctx : PolicyCtx :=
  ⟨"Australia/Sydney", "take your pill", none⟩

/-- C1 counterexample: an intent with an empty recipients list and an empty
body succeeds (`ok: true`), because `pickRecipients` ignores the parsed
recipients and returns the hardcoded number; the claimed `{ok:false}` with
the recipients error does not occur. -/
theorem evaluatePolicy_empty_recipients_succeeds :
    (evaluatePolicy 0 1760265600000 c1Intent c1Ctx).isOk = true
    ∧ c1Intent.recipients = []
    ∧ c1Intent.message = some ""
    ∧ pickRecipients c1Intent = ["+61412345678"] := by
  exact ⟨by rfl, rfl, rfl, rfl⟩

/-- C1 (amended): recipient resolution is hardcoded to the single internal
number and never empty, so the `"No valid recipient phone numbers found."`
failure is unreachable; an intent whose message, template and raw-utterance
fallback are all empty fails with `"Message body is empty."`, and on a
failed policy the agent never attempts the job-queue enqueue. -/
theorem evaluatePolicy_recipient_and_body_failure (off now : Int)
    (i : NotificationIntent) (ctx : PolicyCtx) :
    pickRecipients i = ["+61412345678"]
    ∧ (evaluatePolicy off now i ctx).isFailWith
        "No valid recipient phone numbers found." = false
    ∧ (jsTrim (i.message.getD "") = "" → strTruthy i.templateKey = false →
        jsTrim ctx.inputMessage = "" →
        evaluatePolicy off now i ctx = .fail "Message body is empty."
        ∧ enqueueAttempted (evaluatePolicy off now i ctx) = false) := by
  refine ⟨rfl, ?_, ?_⟩
  · unfold evaluatePolicy
    simp only [pickRecipients, List.length_singleton]
    rw [if_neg (by omega)]
    split
    · decide
    · rfl
  · intro h1 h2 h3
    have hb : pickBody i ctx = ("", []) := by
      unfold pickBody
      rw [h1, if_neg (by simp), h2]
      simp only [Bool.false_eq_true, if_false]
      rw [h3, if_neg (by simp)]
    have : evaluatePolicy off now i ctx = .fail "Message body is empty." := by
      unfold evaluatePolicy
      simp only [pickRecipients, List.length_singleton]
      rw [if_neg (by omega)]
      rw [hb]
      simp
    exact ⟨this, by rw [this]; rfl⟩

def c1wIntent : NotificationIntent :=
  ⟨"remind", "whatsapp", [⟨"+15551234567", none⟩], none, none, none, [], none⟩

def c1wCtx : PolicyCtx := ⟨"UTC", "", none⟩

/-- C1 witness: the amended failure case at a concrete input whose message,
template and utterance are all empty. -/
theorem evaluatePolicy_recipient_and_body_failure_witness :
    pickRecipients c1wIntent = ["+61412345678"]
    ∧ evaluatePolicy 0 0 c1wIntent c1wCtx = .fail "Message body is empty."
    ∧ enqueueAttempted (evaluatePolicy 0 0 c1wIntent c1wCtx) = false :=
  ⟨(evaluatePolicy_recipient_and_body_failure 0 0 c1wIntent c1wCtx).1,
   ((evaluatePolicy_recipient_and_body_failure 0 0 c1wIntent c1wCtx).2.2
     (by rfl) (by rfl) (by rfl)).1,
   ((evaluatePolicy_recipient_and_body_failure 0 0 c1wIntent c1wCtx).2.2
     (by rfl) (by rfl) (by rfl)).2⟩

/-! ## C2: the idempotency key is a function of the resolved plan fields -/

/-- The idempotency key of any produced plan is the hash of exactly the
resolved recipients, body, `scheduleAt` and `repeat`. -/
theorem plan_key_composition (off now : Int) (i : NotificationIntent)
    (ctx : PolicyCtx) (p : NotificationPlan)
    (h : (evaluatePolicy off now i ctx).planOf = some p) :
    p.idempotencyKey = generateIdempotencyKey (pickRecipients i)
      (pickBody i ctx).1
      (pickSchedule off now i (pickTimezone i ctx) ctx).scheduleAt
      (pickSchedule off now i (pickTimezone i ctx) ctx).repeatSpec := by
  unfold evaluatePolicy at h
  simp only [pickRecipients, List.length_singleton] at h
  rw [if_neg (by omega)] at h
  split at h
  · exact absurd h (by simp [PolicyResult.planOf])
  · simp only [PolicyResult.planOf, Option.some.injEq] at h
    subst h
    rfl

/-- C2: for any two evaluations whose resolved recipients, body,
`scheduleAt` and `repeat` coincide, the produced plans carry the same
idempotency key — the key is a deterministic function of exactly those
fields. -/
theorem idempotency_key_deterministic
    (off1 now1 off2 now2 : Int) (i1 i2 : NotificationIntent)
    (c1 c2 : PolicyCtx) (p1 p2 : NotificationPlan)
    (h1 : (evaluatePolicy off1 now1 i1 c1).planOf = some p1)
    (h2 : (evaluatePolicy off2 now2 i2 c2).planOf = some p2)
    (hto : pickRecipients i1 = pickRecipients i2)
    (hbody : (pickBody i1 c1).1 = (pickBody i2 c2).1)
    (hsched : (pickSchedule off1 now1 i1 (pickTimezone i1 c1) c1).scheduleAt
      = (pickSchedule off2 now2 i2 (pickTimezone i2 c2) c2).scheduleAt)
    (hrep : (pickSchedule off1 now1 i1 (pickTimezone i1 c1) c1).repeatSpec
      = (pickSchedule off2 now2 i2 (pickTimezone i2 c2) c2).repeatSpec) :
    p1.idempotencyKey = p2.idempotencyKey := by
  rw [plan_key_composition off1 now1 i1 c1 p1 h1,
    plan_key_composition off2 now2 i2 c2 p2 h2, hto, hbody, hsched, hrep]

/-- C2 witness inputs: two intents differing in recipients, channel and
intent label, with the same message and the same absolute schedule. -/
def c2wA : NotificationIntent :=
  ⟨"notify", "whatsapp", [], some (.datetime "2025-07-01T09:00:00.000Z" none),
   none, some "hello", [], none⟩

def c2wB : NotificationIntent :=
  ⟨"remind", "sms", [⟨"+19998887777", some "Ann"⟩],
   some (.datetime "2025-07-01T09:00:00.000Z" none), none, some "hello", [],
   none⟩

def c2wCtx : PolicyCtx := ⟨"UTC", "hello there", none⟩

def c2wDummyPlan : NotificationPlan :=
  ⟨"sms", [], "", none, none, ⟨3, 2000⟩, "", none, none⟩

def c2wPlanA : NotificationPlan :=
  ((evaluatePolicy 0 0 c2wA c2wCtx).planOf).getD c2wDummyPlan

def c2wPlanB : NotificationPlan :=
  ((evaluatePolicy 0 0 c2wB c2wCtx).planOf).getD c2wDummyPlan

/-- C2 witness: the two concrete evaluations produce plans, and their keys
agree. -/
theorem idempotency_key_deterministic_witness :
    (evaluatePolicy 0 0 c2wA c2wCtx).planOf = some c2wPlanA
    ∧ (evaluatePolicy 0 0 c2wB c2wCtx).planOf = some c2wPlanB
    ∧ c2wPlanA.idempotencyKey = c2wPlanB.idempotencyKey :=
  ⟨by rfl, by rfl,
   idempotency_key_deterministic 0 0 0 0 c2wA c2wB c2wCtx c2wCtx
     c2wPlanA c2wPlanB (by rfl) (by rfl) (by rfl) (by rfl) (by rfl) (by rfl)⟩

/-! ## C10: the appointment block-guard -/

/-- C10: for every classified `appointment.*` intent whose request metadata
lacks a valid access token (missing metadata, missing or empty token, or the
`test-token` placeholder), `RouterAgent.process` returns the guard's
user-facing explanation with `route = "none"` and never invokes any target
handler's `process`, regardless of how the classification was obtained. -/
theorem appointment_guard_blocks_dispatch (classified : Classified)
    (handlers : String → Option (RAgentInput → Except String AgentResult))
    (input : RAgentInput)
    (hIntent : startsWithLit classified.intent "appointment." = true)
    (hToken : input.metadata = none
      ∨ (∃ m, input.metadata = some m
          ∧ (m.googleAccessToken = none ∨ m.googleAccessToken = some ""
             ∨ m.googleAccessToken = some "test-token"))) :
    routerAgentProcess classified handlers input =
      ({ route := "none"
         intent := "blocked"
         reply := "Google Calendar access is required to manage appointments."
         actions := []
         sharedData := none
         usageTotalTokens := none
         multiAgentRequest := none
         additionalAgents := none }, []) := by
  have hMissing :
      (match input.metadata with
        | none => true
        | some m =>
          match m.googleAccessToken with
          | none => true
          | some t => t = "" || t = "test-token") = true := by
    rcases hToken with h | ⟨m, hm, htok⟩
    · rw [h]
    · rw [hm]
      rcases htok with h | h | h <;> simp [h]
  have hGuard : appointmentGuard classified.intent input.metadata =
      ⟨true, some "Google Calendar access is required to manage appointments."⟩ := by
    unfold appointmentGuard
    rw [if_pos (by rw [hIntent, hMissing]; rfl)]
  unfold routerAgentProcess
  rw [hGuard]
  rfl

def c10Classified : Classified :=
  ⟨"appointment.book", none, none, none, none⟩

def c10Input : RAgentInput :=
  ⟨"u1", "s1", "book a GP appointment tomorrow 3pm", some ⟨some "test-token"⟩,
   none, none⟩

/-- C10 witness: a concrete `appointment.book` request carrying the
placeholder token is blocked with the explanation and an empty invocation
trace, even with a handler registered for the route. -/
theorem appointment_guard_blocks_dispatch_witness :
    routerAgentProcess c10Classified
      (fun _ => some (fun _ => .ok ⟨"booked", [], none, none⟩)) c10Input =
      ({ route := "none"
         intent := "blocked"
         reply := "Google Calendar access is required to manage appointments."
         actions := []
         sharedData := none
         usageTotalTokens := none
         multiAgentRequest := none
         additionalAgents := none }, []) :=
  appointment_guard_blocks_dispatch c10Classified _ c10Input (by rfl)
    (Or.inr ⟨⟨some "test-token"⟩, rfl, Or.inr (Or.inr rfl)⟩)

/-! ## C3: winner-take-all adopts the first-listed success

The join (`promiseAllSettled`) processes branch completions in wall-clock
order and re-derives the input order from the slot indexes; the lemmas
below show the result is the input-order list of settled values, for every
completion schedule.
-/

theorem insertByKey_perm (f : α → Nat) (a : α) (l : List α) :
    (insertByKey f a l).Perm (a :: l) := by
  induction l with
  | nil => exact List.Perm.refl _
  | cons b bs ih =>
    unfold insertByKey
    split
    · exact List.Perm.refl _
    · exact (ih.cons b).trans (List.Perm.swap a b bs)

theorem sortByKey_perm (f : α → Nat) (l : List α) :
    (sortByKey f l).Perm l := by
  induction l with
  | nil => exact List.Perm.refl _
  | cons a as ih =>
    exact (insertByKey_perm f a (sortByKey f as)).trans (ih.cons a)

theorem mem_insertByKey {f : α → Nat} {a x : α} {l : List α}
    (h : x ∈ insertByKey f a l) : x = a ∨ x ∈ l :=
  by simpa using (insertByKey_perm f a l).mem_iff.mp h

theorem insertByKey_pairwise {f : α → Nat} {a : α} {l : List α}
    (h : l.Pairwise (fun x y => f x ≤ f y)) :
    (insertByKey f a l).Pairwise (fun x y => f x ≤ f y) := by
  induction l with
  | nil => simp [insertByKey]
  | cons b bs ih =>
    rw [List.pairwise_cons] at h
    unfold insertByKey
    split
    · rename_i hle
      rw [List.pairwise_cons]
      refine ⟨?_, List.pairwise_cons.mpr h⟩
      intro x hx
      rcases List.mem_cons.mp hx with hxb | hxbs
      · exact hxb ▸ hle
      · exact le_trans hle (h.1 x hxbs)
    · rename_i hgt
      rw [List.pairwise_cons]
      refine ⟨?_, ih h.2⟩
      intro x hx
      rcases mem_insertByKey hx with hxa | hxbs
      · subst hxa; omega
      · exact h.1 x hxbs

theorem sortByKey_pairwise (f : α → Nat) (l : List α) :
    (sortByKey f l).Pairwise (fun x y => f x ≤ f y) := by
  induction l with
  | nil => simp [sortByKey]
  | cons a as ih => exact insertByKey_pairwise ih

/-- Two permuted lists, both sorted by a key that repeats in neither, are
equal. -/
theorem eq_of_perm_of_sorted_of_key_nodup (f : α → Nat) :
    ∀ {l m : List α}, l.Perm m →
      l.Pairwise (fun x y => f x ≤ f y) →
      m.Pairwise (fun x y => f x ≤ f y) →
      ((l.map f).Nodup) → l = m
  | [], m, hp, _, _, _ => hp.nil_eq
  | a :: l', [], hp, _, _, _ => absurd hp.symm (by simp)
  | a :: l', b :: m', hp, hl, hm, hnd => by
    rw [List.pairwise_cons] at hl hm
    have hab : a = b := by
      by_contra hne
      have ha : a ∈ b :: m' := hp.mem_iff.mp (List.mem_cons_self _ _)
      have hb : b ∈ a :: l' := hp.symm.mem_iff.mp (List.mem_cons_self _ _)
      have ham' : a ∈ m' := by
        rcases List.mem_cons.mp ha with h | h
        · exact absurd h hne
        · exact h
      have hbl' : b ∈ l' := by
        rcases List.mem_cons.mp hb with h | h
        · exact absurd h.symm hne
        · exact h
      have h1 : f a ≤ f b := hl.1 b hbl'
      have h2 : f b ≤ f a := hm.1 a ham'
      have hfe : f a = f b := le_antisymm h1 h2
      have hnd2 : (f a ∉ l'.map f) ∧ (l'.map f).Nodup := by
        rw [List.map_cons, List.nodup_cons] at hnd
        exact hnd
      exact hnd2.1 (hfe ▸ List.mem_map_of_mem f hbl')
    subst hab
    have htl : l'.Perm m' := hp.cons_inv
    have hnd2 : (f a ∉ l'.map f) ∧ (l'.map f).Nodup := by
      rw [List.map_cons, List.nodup_cons] at hnd
      exact hnd
    have := eq_of_perm_of_sorted_of_key_nodup f htl hl.2 hm.2 hnd2.2
    rw [this]

theorem enumFromIdx_map_snd (i : Nat) (xs : List α) :
    (enumFromIdx i xs).map Prod.snd = xs := by
  induction xs generalizing i with
  | nil => rfl
  | cons x xs ih => simp [enumFromIdx, ih]

theorem enumFromIdx_fst_ge {i : Nat} {xs : List α} :
    ∀ p ∈ enumFromIdx i xs, i ≤ p.1 := by
  induction xs generalizing i with
  | nil => intro p hp; cases hp
  | cons x xs ih =>
    intro p hp
    rcases List.mem_cons.mp hp with h | h
    · subst h; exact le_refl _
    · exact le_trans (Nat.le_succ i) (ih p h)

theorem enumFromIdx_pairwise_lt (i : Nat) (xs : List α) :
    (enumFromIdx i xs).Pairwise (fun a b => a.1 < b.1) := by
  induction xs generalizing i with
  | nil => simp [enumFromIdx]
  | cons x xs ih =>
    rw [enumFromIdx, List.pairwise_cons]
    exact ⟨fun p hp => lt_of_lt_of_le (Nat.lt_succ_self i)
      (enumFromIdx_fst_ge p hp), ih (i + 1)⟩

theorem enumFromIdx_fst_nodup (i : Nat) (xs : List α) :
    ((enumFromIdx i xs).map Prod.fst).Nodup := by
  have hlt : ((enumFromIdx i xs).map Prod.fst).Pairwise (· < ·) := by
    rw [List.pairwise_map]
    exact enumFromIdx_pairwise_lt i xs
  exact hlt.imp (fun h => Nat.ne_of_lt h)

/-- The join returns the settled values in input order, for every
completion schedule. -/
theorem promiseAllSettled_eq (st : GraphState) (tasks : List BranchTask) :
    promiseAllSettled st tasks = tasks.map (BranchTask.settle st) := by
  unfold promiseAllSettled
  have hPermTime : (sortByKey (fun p => p.2.finishMs)
      (enumFromIdx 0 tasks)).Perm (enumFromIdx 0 tasks) :=
    sortByKey_perm _ _
  have hPermIdx : (sortByKey (fun p => p.1) (sortByKey (fun p => p.2.finishMs)
      (enumFromIdx 0 tasks))).Perm (enumFromIdx 0 tasks) :=
    (sortByKey_perm _ _).trans hPermTime
  have hSortedIdx := sortByKey_pairwise (fun p : Nat × BranchTask => p.1)
    (sortByKey (fun p => p.2.finishMs) (enumFromIdx 0 tasks))
  have hSortedEnum : (enumFromIdx 0 tasks).Pairwise
      (fun a b : Nat × BranchTask => a.1 ≤ b.1) :=
    (enumFromIdx_pairwise_lt 0 tasks).imp (fun h => le_of_lt h)
  have hNodup : ((sortByKey (fun p => p.1) (sortByKey (fun p => p.2.finishMs)
      (enumFromIdx 0 tasks))).map (fun p : Nat × BranchTask => p.1)).Nodup := by
    have := enumFromIdx_fst_nodup 0 tasks
    exact ((hPermIdx.map _).nodup_iff).mpr this
  have heq := eq_of_perm_of_sorted_of_key_nodup
    (fun p : Nat × BranchTask => p.1) hPermIdx hSortedIdx hSortedEnum hNodup
  show (sortByKey (fun p => p.1) (sortByKey (fun p => p.2.finishMs)
    (enumFromIdx 0 tasks))).map (fun p => BranchTask.settle st p.2)
    = tasks.map (BranchTask.settle st)
  rw [heq]
  rw [show (fun p : Nat × BranchTask => BranchTask.settle st p.2)
      = (BranchTask.settle st) ∘ Prod.snd from rfl]
  rw [← List.map_map, enumFromIdx_map_snd]

def BranchTask.succeeded (t : BranchTask) : Bool :=
  match t.outcome with
  | .ok _ => true
  | .error _ => false

/-- The state a settled branch contributes (its result on success, the
pre-cascade state otherwise). -/
def BranchTask.resultOr (st : GraphState) (t : BranchTask) : GraphState :=
  match t.outcome with
  | .ok r => r
  | .error _ => st

theorem settle_success (st : GraphState) (t : BranchTask) :
    (BranchTask.settle st t).success = t.succeeded := by
  obtain ⟨r, o, m⟩ := t
  cases o <;> rfl

theorem settle_result (st : GraphState) (t : BranchTask) :
    (BranchTask.settle st t).result = t.resultOr st := by
  obtain ⟨r, o, m⟩ := t
  cases o <;> rfl

/-- C3: under winner-take-all, for every non-empty branch list the engine
joins all settled branches and adopts the result of the first branch in
original list order whose invocation succeeded (the original state when
none did); the adopted result is independent of the completion schedule,
and in particular when the second-listed branch finishes first and both
succeed, the first-listed branch's result is adopted. -/
theorem winner_take_all_first_listed (st : GraphState)
    (tasks : List BranchTask) (_hne : tasks ≠ []) :
    (executeWinnerTakeAllCollaboration st tasks =
      match tasks.find? BranchTask.succeeded with
      | some t => t.resultOr st
      | none => st)
    ∧ (∀ retime : BranchTask → Nat,
        executeWinnerTakeAllCollaboration st
          (tasks.map (fun t => ⟨t.rule, t.outcome, retime t⟩)) =
        executeWinnerTakeAllCollaboration st tasks)
    ∧ (∀ (r1 r2 : CollabRule) (s1 s2 : GraphState) (t1 t2 : Nat), t2 < t1 →
        executeWinnerTakeAllCollaboration st
          [⟨r1, .ok s1, t1⟩, ⟨r2, .ok s2, t2⟩] = s1) := by
  have key : ∀ ts : List BranchTask,
      executeWinnerTakeAllCollaboration st ts =
        match ts.find? BranchTask.succeeded with
        | some t => t.resultOr st
        | none => st := by
    intro ts
    unfold executeWinnerTakeAllCollaboration
    rw [promiseAllSettled_eq]
    unfold findFirstSuccessfulResult
    show (match (ts.map (BranchTask.settle st)).find? (fun x => x.success) with
          | some r => r.result
          | none => st)
        = match ts.find? BranchTask.succeeded with
          | some t => t.resultOr st
          | none => st
    rw [List.find?_map]
    have hpred : ((fun r : CollabResult => r.success) ∘ BranchTask.settle st)
        = BranchTask.succeeded := by
      funext t
      exact settle_success st t
    rw [hpred]
    cases hf : ts.find? BranchTask.succeeded with
    | none => rfl
    | some t => simp [settle_result]
  refine ⟨key tasks, ?_, ?_⟩
  · intro retime
    rw [key, key]
    rw [List.find?_map]
    have hpred : (BranchTask.succeeded ∘
        fun t : BranchTask => ⟨t.rule, t.outcome, retime t⟩)
        = BranchTask.succeeded := by
      funext t
      rfl
    rw [hpred]
    cases hf : tasks.find? BranchTask.succeeded with
    | none => rfl
    | some t => rfl
  · intro r1 r2 s1 s2 t1 t2 _
    rw [key]
    rfl

def c3Input : GAgentInput := ⟨"u1", "s1", "hello", none⟩

def c3BaseState : GraphState := createInitialState c3Input

def c3StateA : GraphState :=
  { c3BaseState with currentAgent := some "appointment" }

def c3StateB : GraphState :=
  { c3BaseState with currentAgent := some "report" }

def c3Tasks : List BranchTask :=
  [⟨notificationToAppointmentRule, .error "boom", 7⟩,
   ⟨appointmentToReportRule, .ok c3StateB, 2⟩]

/-- C3 witness: the order-based characterization at a concrete branch list,
and the two-successes case where the second branch finishes first (3 < 10)
but the first branch's result is adopted. -/
theorem winner_take_all_first_listed_witness :
    (executeWinnerTakeAllCollaboration c3BaseState c3Tasks =
      match c3Tasks.find? BranchTask.succeeded with
      | some t => t.resultOr c3BaseState
      | none => c3BaseState)
    ∧ executeWinnerTakeAllCollaboration c3BaseState
        [⟨notificationToAppointmentRule, .ok c3StateA, 10⟩,
         ⟨appointmentToReportRule, .ok c3StateB, 3⟩] = c3StateA :=
  ⟨(winner_take_all_first_listed c3BaseState c3Tasks (by simp [c3Tasks])).1,
   (winner_take_all_first_listed c3BaseState c3Tasks (by simp [c3Tasks])).2.2
     notificationToAppointmentRule appointmentToReportRule c3StateA c3StateB
     10 3 (by omega)⟩

/-! ## C8: `context.sharedData` grows by key union across stages -/

theorem jsSpread_hasKey_left {a : JObj} (b : JObj) {k : String}
    (h : a.hasKey k = true) : (jsSpread a b).hasKey k = true := by
  rw [jsSpread_hasKey, h, Bool.true_or]

theorem save_preserves_key (ingest : Bool) (st : GraphState) (k : String)
    (h : st.context.sharedData.hasKey k = true) :
    (saveIfReportCandidateOnce ingest st).context.sharedData.hasKey k
      = true := by
  unfold saveIfReportCandidateOnce
  split
  · exact h
  · split
    · exact h
    · split
      · exact h
      · exact jsSpread_hasKey_left _ h

theorem executeRouter_preserves_key (routerRun : Except String RouterOut)
    (st : GraphState) (k : String)
    (h : st.context.sharedData.hasKey k = true) :
    (executeRouter routerRun st).context.sharedData.hasKey k = true := by
  unfold executeRouter
  cases routerRun with
  | ok r => exact h
  | error e => exact h

theorem executeSpecializedAgent_context_eq
    (agentRun : String → Except String AgentResult) (st : GraphState) :
    (executeSpecializedAgent agentRun st).context = st.context := by
  simp only [executeSpecializedAgent]
  split
  · rfl
  · rfl

theorem createCollaborationState_preserves_key (st : GraphState)
    (rule : CollabRule) (k : String)
    (h : st.context.sharedData.hasKey k = true) :
    (createCollaborationState st rule).context.sharedData.hasKey k = true :=
  jsSpread_hasKey_left _ h

theorem executeCollaborationRule_preserves_key (ingest : Bool)
    (agentRun : String → Except String AgentResult) (st : GraphState)
    (rule : CollabRule) (k : String)
    (h : st.context.sharedData.hasKey k = true) :
    (executeCollaborationRule ingest agentRun st rule).context.sharedData.hasKey
      k = true := by
  unfold executeCollaborationRule
  rw [executeSpecializedAgent_context_eq]
  exact createCollaborationState_preserves_key _ rule k
    (save_preserves_key ingest st k h)

theorem mergeSingleResult_preserves_key (merged result : GraphState)
    (k : String) (h : merged.context.sharedData.hasKey k = true) :
    (mergeSingleResult merged result).context.sharedData.hasKey k = true :=
  jsSpread_hasKey_left _ (jsSpread_hasKey_left _ h)

theorem mergeCollaborationResults_preserves_key (results : List GraphState)
    (st : GraphState) (k : String)
    (h : st.context.sharedData.hasKey k = true) :
    (mergeCollaborationResults st results).context.sharedData.hasKey k
      = true := by
  induction results generalizing st with
  | nil => exact h
  | cons r rs ih =>
    exact ih (mergeSingleResult st r) (mergeSingleResult_preserves_key st r k h)

/-- Key preservation through the sequential strategy, for any invocation
function that itself preserves keys on success. -/
theorem sequential_preserves_key
    (invoke : GraphState → CollabRule → Except String GraphState)
    (hinv : ∀ s r res k, invoke s r = .ok res →
      s.context.sharedData.hasKey k = true →
      res.context.sharedData.hasKey k = true)
    (rules : List CollabRule) (st : GraphState) (k : String)
    (h : st.context.sharedData.hasKey k = true) :
    (executeSequentialCollaboration invoke st rules).context.sharedData.hasKey
      k = true := by
  induction rules generalizing st with
  | nil => exact h
  | cons rule rest ih =>
    unfold executeSequentialCollaboration
    cases hr : invoke st rule with
    | ok result => exact ih result (hinv st rule result k hr h)
    | error e => exact ih st h

theorem winnerTakeAll_preserves_key
    (invoke : GraphState → CollabRule → Except String GraphState)
    (hinv : ∀ s r res k, invoke s r = .ok res →
      s.context.sharedData.hasKey k = true →
      res.context.sharedData.hasKey k = true)
    (ftime : CollabRule → Nat) (rules : List CollabRule) (st : GraphState)
    (k : String) (h : st.context.sharedData.hasKey k = true) :
    (executeWinnerTakeAllCollaboration st
      (branchTasks invoke ftime st rules)).context.sharedData.hasKey k
      = true := by
  unfold executeWinnerTakeAllCollaboration
  rw [promiseAllSettled_eq]
  unfold findFirstSuccessfulResult
  show (match ((branchTasks invoke ftime st rules).map
      (BranchTask.settle st)).find? (fun r : CollabResult => r.success) with
    | some r => r.result
    | none => st).context.sharedData.hasKey k = true
  cases hf : ((branchTasks invoke ftime st rules).map
      (BranchTask.settle st)).find? (fun r : CollabResult => r.success) with
  | none => simp only [hf]; exact h
  | some c =>
    simp only [hf]
    have hmem := List.mem_of_find?_eq_some hf
    obtain ⟨t, htmem, hts⟩ := List.mem_map.mp hmem
    obtain ⟨rule, hrmem, hrt⟩ := List.mem_map.mp htmem
    show c.result.context.sharedData.hasKey k = true
    cases hout : invoke st rule with
    | ok res =>
      have : c = ⟨rule, res, true⟩ := by
        rw [← hts, ← hrt]
        unfold BranchTask.settle
        simp [branchTasks, hout]
      rw [this]
      exact hinv st rule res k hout h
    | error e =>
      have : c = ⟨rule, st, false⟩ := by
        rw [← hts, ← hrt]
        unfold BranchTask.settle
        simp [branchTasks, hout]
      rw [this]
      exact h

theorem allFinishMerge_preserves_key
    (invoke : GraphState → CollabRule → Except String GraphState)
    (ftime : CollabRule → Nat) (rules : List CollabRule) (st : GraphState)
    (k : String) (h : st.context.sharedData.hasKey k = true) :
    (executeAllFinishMergeCollaboration st
      (branchTasks invoke ftime st rules)).context.sharedData.hasKey k
      = true := by
  unfold executeAllFinishMergeCollaboration
  exact mergeCollaborationResults_preserves_key _ st k h

theorem parallel_preserves_key
    (tasks : List BranchTask) (st : GraphState) (k : String)
    (h : st.context.sharedData.hasKey k = true) :
    (executeParallelCollaboration st tasks).context.sharedData.hasKey k
      = true := by
  unfold executeParallelCollaboration
  exact mergeCollaborationResults_preserves_key _ st k h

/-- Key preservation through the whole collaboration stage, with the
engine's concrete rule invoker. -/
theorem collaborationStage_preserves_key (ms : Int) (ingest : Bool)
    (rules : List CollabRule)
    (agentRun : String → Except String AgentResult) (ftime : CollabRule → Nat)
    (st : GraphState) (k : String)
    (h : st.context.sharedData.hasKey k = true) :
    (executeCollaborationStage ms ingest rules
      (fun s r => .ok (executeCollaborationRule ingest agentRun s r)) ftime
      st).context.sharedData.hasKey k = true := by
  have hinv : ∀ (s : GraphState) (r : CollabRule) (res : GraphState)
      (k : String),
      (Except.ok (executeCollaborationRule ingest agentRun s r)
        : Except String GraphState) = .ok res →
      s.context.sharedData.hasKey k = true →
      res.context.sharedData.hasKey k = true := by
    intro s r res k hok hkey
    cases hok
    exact executeCollaborationRule_preserves_key ingest agentRun s r k hkey
  have generic : ∀ st1 : GraphState,
      st1.context.sharedData.hasKey k = true →
      (executeGenericCollaboration rules
        (fun s r => .ok (executeCollaborationRule ingest agentRun s r)) ftime
        st1).context.sharedData.hasKey k = true := by
    intro st1 hsave
    simp only [executeGenericCollaboration]
    split
    · exact hsave
    · split
      · exact hsave
      · split
        · exact hsave
        · simp only [executeCollaborationStrategy]
          split
          · exact sequential_preserves_key _ hinv _ st1 k hsave
          · exact parallel_preserves_key _ st1 k hsave
          · exact winnerTakeAll_preserves_key _ hinv ftime _ st1 k hsave
          · exact allFinishMerge_preserves_key _ ftime _ st1 k hsave
  unfold executeCollaborationStage
  exact generic (saveIfReportCandidateOnce ingest st)
    (save_preserves_key ingest st k h)

/-- C8: across every stage of a graph run the key set of
`context.sharedData` only grows: the router stage, the handler stage (whose
context is untouched), collaboration-state construction, every merge of
collaboration results, and the whole collaboration stage keep every key
present in the input state. -/
theorem sharedData_key_union :
    (∀ (ms : Int) (ingest : Bool) (routerRun : Except String RouterOut)
      (st : GraphState) (k : String),
      st.context.sharedData.hasKey k = true →
      (executeRouterStage ms ingest routerRun st).context.sharedData.hasKey k
        = true)
    ∧ (∀ (ms : Int) (agentRun : String → Except String AgentResult)
      (st : GraphState) (k : String),
      st.context.sharedData.hasKey k = true →
      (executeSpecializedAgentStage ms agentRun st).context.sharedData.hasKey k
        = true)
    ∧ (∀ (st : GraphState) (rule : CollabRule) (k : String),
      st.context.sharedData.hasKey k = true →
      (createCollaborationState st rule).context.sharedData.hasKey k = true)
    ∧ (∀ (merged result : GraphState) (k : String),
      merged.context.sharedData.hasKey k = true →
      (mergeSingleResult merged result).context.sharedData.hasKey k = true)
    ∧ (∀ (ms : Int) (ingest : Bool) (rules : List CollabRule)
      (agentRun : String → Except String AgentResult)
      (ftime : CollabRule → Nat) (st : GraphState) (k : String),
      st.context.sharedData.hasKey k = true →
      (executeCollaborationStage ms ingest rules
        (fun s r => .ok (executeCollaborationRule ingest agentRun s r)) ftime
        st).context.sharedData.hasKey k = true) := by
  refine ⟨?_, ?_, createCollaborationState_preserves_key,
    mergeSingleResult_preserves_key, collaborationStage_preserves_key⟩
  · intro ms ingest routerRun st k h
    unfold executeRouterStage
    exact save_preserves_key ingest _ k
      (executeRouter_preserves_key routerRun st k h)
  · intro ms agentRun st k h
    unfold executeSpecializedAgentStage
    show (executeSpecializedAgent agentRun st).context.sharedData.hasKey k
      = true
    rw [executeSpecializedAgent_context_eq]
    exact h

def c8State : GraphState :=
  { createInitialState ⟨"u1", "s1", "I slept badly", none⟩ with
    context := ⟨none, none, [("seed", JVal.jbool true)], none, none⟩
    finalOutput := some ⟨"done", [], some [("notificationSchedule", JVal.jobj "sched")], none⟩ }

/-- C8 witness: each stage applied to a concrete state carrying the key
`"seed"` still carries it. -/
theorem sharedData_key_union_witness :
    (executeRouterStage 1 true (.error "boom") c8State).context.sharedData.hasKey
      "seed" = true
    ∧ (executeSpecializedAgentStage 1 (fun _ => .error "boom")
        c8State).context.sharedData.hasKey "seed" = true
    ∧ (createCollaborationState c8State
        notificationToAppointmentRule).context.sharedData.hasKey "seed" = true
    ∧ (mergeSingleResult c8State
        (createInitialState ⟨"u2", "s2", "x", none⟩)).context.sharedData.hasKey
        "seed" = true
    ∧ (executeCollaborationStage 1 true getCollaborationRules
        (fun s r => .ok (executeCollaborationRule true
          (fun _ => .ok ⟨"ok", [], none, none⟩) s r))
        (fun _ => 0) c8State).context.sharedData.hasKey "seed" = true :=
  ⟨sharedData_key_union.1 1 true (.error "boom") c8State "seed" (by rfl),
   sharedData_key_union.2.1 1 (fun _ => .error "boom") c8State "seed" (by rfl),
   sharedData_key_union.2.2.1 c8State notificationToAppointmentRule "seed"
     (by rfl),
   sharedData_key_union.2.2.2.1 c8State
     (createInitialState ⟨"u2", "s2", "x", none⟩) "seed" (by rfl),
   sharedData_key_union.2.2.2.2 1 true getCollaborationRules
     (fun _ => .ok ⟨"ok", [], none, none⟩) (fun _ => 0) c8State "seed"
     (by rfl)⟩

/-! ## C9: the multi-agent skip of the collaboration stage -/

theorem save_currentAgent (ingest : Bool) (st : GraphState) :
    (saveIfReportCandidateOnce ingest st).currentAgent = st.currentAgent := by
  unfold saveIfReportCandidateOnce
  split
  · rfl
  · split
    · rfl
    · split
      · rfl
      · rfl

theorem save_error_eq (ingest : Bool) (st : GraphState) :
    (saveIfReportCandidateOnce ingest st).error = st.error := by
  unfold saveIfReportCandidateOnce
  split
  · rfl
  · split
    · rfl
    · split
      · rfl
      · rfl

theorem save_finalOutput (ingest : Bool) (st : GraphState) :
    (saveIfReportCandidateOnce ingest st).finalOutput = st.finalOutput := by
  unfold saveIfReportCandidateOnce
  split
  · rfl
  · split
    · rfl
    · split
      · rfl
      · rfl

theorem save_timeline (ingest : Bool) (st : GraphState) :
    (saveIfReportCandidateOnce ingest st).timeline = st.timeline := by
  unfold saveIfReportCandidateOnce
  split
  · rfl
  · split
    · rfl
    · split
      · rfl
      · rfl

theorem save_multiAgent (ingest : Bool) (st : GraphState) :
    (saveIfReportCandidateOnce ingest st).context.multiAgentRequest
      = st.context.multiAgentRequest := by
  unfold saveIfReportCandidateOnce
  split
  · rfl
  · split
    · rfl
    · split
      · rfl
      · rfl

def c9State : GraphState :=
  { createInitialState ⟨"u1", "s1", "my sleep report", none⟩ with
    context := ⟨none, none, [], some true, none⟩ }

/-- C9 counterexample: with `multiAgentRequest = true` and a
report-candidate utterance, the collaboration stage still adds the
`__reportIngested` key to `context.sharedData`, so it does not return the
input state unchanged apart from the timeline entry. -/
theorem collaborationStage_skip_still_ingests :
    c9State.context.multiAgentRequest = some true
    ∧ c9State.context.sharedData.hasKey "__reportIngested" = false
    ∧ (executeCollaborationStage 0 true getCollaborationRules
        (fun s _ => .ok s) (fun _ => 0)
        c9State).context.sharedData.hasKey "__reportIngested" = true :=
  ⟨rfl, rfl, by rfl⟩

/-- C9 (amended): when `context.multiAgentRequest` is true, the
collaboration stage evaluates no rule predicate and invokes no handler —
its result does not depend on the rule list, the invoker or the completion
schedule — and it returns the input state with only the timeline entry
appended, except that the pre-collaboration report-ingestion pass may first
add `__reportIngested` to `context.sharedData`. -/
theorem collaborationStage_multiAgent_skip (ms : Int) (ingest : Bool)
    (rules1 rules2 : List CollabRule)
    (invoke1 invoke2 : GraphState → CollabRule → Except String GraphState)
    (ftime1 ftime2 : CollabRule → Nat) (st : GraphState)
    (h : st.context.multiAgentRequest.getD false = true) :
    (executeCollaborationStage ms ingest rules1 invoke1 ftime1 st =
      { saveIfReportCandidateOnce ingest st with
        timeline := (saveIfReportCandidateOnce ingest st).timeline
          ++ [mkTimelineEntry "collaboration" ms none none none] })
    ∧ executeCollaborationStage ms ingest rules1 invoke1 ftime1 st
      = executeCollaborationStage ms ingest rules2 invoke2 ftime2 st := by
  have hskip : ∀ (rules : List CollabRule) invoke (ftime : CollabRule → Nat),
      executeGenericCollaboration rules invoke ftime
        (saveIfReportCandidateOnce ingest st)
      = saveIfReportCandidateOnce ingest st := by
    intro rules invoke ftime
    unfold executeGenericCollaboration
    rw [if_pos (by rw [save_multiAgent, h])]
  constructor
  · simp only [executeCollaborationStage]
    rw [hskip]
  · simp only [executeCollaborationStage]
    rw [hskip, hskip]

def c9wState : GraphState :=
  { createInitialState ⟨"u2", "s2", "book and remind me", none⟩ with
    context := ⟨some "appointment.book", none, [], some true, none⟩
    finalOutput := some
      ⟨"done", [], some [("notificationSchedule", JVal.jobj "sched")], none⟩ }

/-- C9 witness: the amended skip at a concrete multi-agent state whose
`finalOutput.sharedData` would otherwise trigger a rule. -/
theorem collaborationStage_multiAgent_skip_witness :
    (executeCollaborationStage 5 false getCollaborationRules
        (fun s _ => .ok s) (fun _ => 0) c9wState =
      { saveIfReportCandidateOnce false c9wState with
        timeline := (saveIfReportCandidateOnce false c9wState).timeline
          ++ [mkTimelineEntry "collaboration" 5 none none none] })
    ∧ executeCollaborationStage 5 false getCollaborationRules
        (fun s _ => .ok s) (fun _ => 0) c9wState
      = executeCollaborationStage 5 false []
        (fun _ _ => .error "never") (fun _ => 99) c9wState :=
  ⟨(collaborationStage_multiAgent_skip 5 false getCollaborationRules []
      (fun s _ => .ok s) (fun _ _ => .error "never") (fun _ => 0)
      (fun _ => 99) c9wState rfl).1,
   (collaborationStage_multiAgent_skip 5 false getCollaborationRules []
      (fun s _ => .ok s) (fun _ _ => .error "never") (fun _ => 0)
      (fun _ => 99) c9wState rfl).2⟩

/-! ## C6: error handling across the graph stages -/

/-- A negative ingestion decision leaves the state untouched. -/
theorem saveIfReportCandidateOnce_false (st : GraphState) :
    saveIfReportCandidateOnce false st = st := by
  unfold saveIfReportCandidateOnce
  split
  · rfl
  · rfl

def c6Input : GAgentInput := ⟨"u1", "s1", "hello", none⟩

/-- C6 counterexample: when the router stage throws, the returned state has
`error` set and the `error_handler` sentinel, but `finalOutput` is left
unset — no apologetic reply with an `{type:"error", status:"failed",
payload}` action is substituted at that boundary. -/
theorem processGraph_router_error_no_apology :
    (processGraph c6Input none (.error "boom") (fun _ => .error "x") false
      (fun _ => 0) 1 2 3).error = some "Router error: boom"
    ∧ (processGraph c6Input none (.error "boom") (fun _ => .error "x") false
      (fun _ => 0) 1 2 3).currentAgent = some "error_handler"
    ∧ (processGraph c6Input none (.error "boom") (fun _ => .error "x") false
      (fun _ => 0) 1 2 3).finalOutput = none :=
  ⟨by rfl, by rfl, by rfl⟩

/-- C6 (amended): `process` never throws and always reports the failure in
`error`, but the boundaries differ from the claim: a router-stage throw
sets the `error_handler` sentinel and leaves `finalOutput` unset; a
handler-stage throw sets the sentinel and keeps the router's `finalOutput`;
only the top-level catch substitutes the generic apologetic `finalOutput`,
whose error action has no payload, and it leaves `currentAgent` unset. -/
theorem graph_error_boundaries :
    (∀ (input : GAgentInput) (e : String) (ingest : Bool)
      (agentRun : String → Except String AgentResult)
      (ftime : CollabRule → Nat) (msR msA msC : Int),
      (processGraph input none (.error e) agentRun ingest ftime msR msA msC).error
        = some ("Router error: " ++ e)
      ∧ (processGraph input none (.error e) agentRun ingest ftime msR msA
          msC).currentAgent = some "error_handler"
      ∧ (processGraph input none (.error e) agentRun ingest ftime msR msA
          msC).finalOutput = none)
    ∧ (∀ (input : GAgentInput) (r : RouterOut) (e : String)
      (agentRun : String → Except String AgentResult)
      (ftime : CollabRule → Nat) (msR msA msC : Int),
      agentRegistry.contains (if r.route = "" then "chat" else r.route)
        = true →
      agentRun (if r.route = "" then "chat" else r.route) = .error e →
      (processGraph input none (.ok r) agentRun false ftime msR msA msC).error
        = some ("Agent execution error in "
            ++ (if r.route = "" then "chat" else r.route) ++ ": " ++ e)
      ∧ (processGraph input none (.ok r) agentRun false ftime msR msA
          msC).currentAgent = some "error_handler"
      ∧ (processGraph input none (.ok r) agentRun false ftime msR msA
          msC).finalOutput = some r.output)
    ∧ (∀ (input : GAgentInput) (e : String)
      (routerRun : Except String RouterOut)
      (agentRun : String → Except String AgentResult) (ingest : Bool)
      (ftime : CollabRule → Nat) (msR msA msC : Int),
      processGraph input (some e) routerRun agentRun ingest ftime msR msA msC
        = { createInitialState input with
            error := some ("Processing error: " ++ e)
            finalOutput := some
              { reply := "I\x27m sorry, I encountered an error. Please try again."
                actions := [⟨"error", "failed", none⟩]
                sharedData := none
                usageTotalTokens := none } }) := by
  refine ⟨?_, ?_, ?_⟩
  · intro input e ingest agentRun ftime msR msA msC
    have herr : (executeRouterStage msR ingest (.error e)
        (createInitialState input)).error.isSome = true := by
      show (saveIfReportCandidateOnce ingest
        (handleRouterError e (createInitialState input))).error.isSome = true
      rw [save_error_eq]
      rfl
    refine ⟨?_, ?_, ?_⟩
    · simp only [processGraph]
      rw [if_pos herr]
      show (saveIfReportCandidateOnce ingest
        (handleRouterError e (createInitialState input))).error
        = some ("Router error: " ++ e)
      rw [save_error_eq]
      rfl
    · simp only [processGraph]
      rw [if_pos herr]
      show (saveIfReportCandidateOnce ingest
        (handleRouterError e (createInitialState input))).currentAgent
        = some "error_handler"
      rw [save_currentAgent]
      rfl
    · simp only [processGraph]
      rw [if_pos herr]
      show (saveIfReportCandidateOnce ingest
        (handleRouterError e (createInitialState input))).finalOutput = none
      rw [save_finalOutput]
      rfl
  · intro input r e agentRun ftime msR msA msC hreg hrun
    have hname : strOrElse (some (if r.route = "" then "chat" else r.route))
        "chat" = (if r.route = "" then "chat" else r.route) := by
      by_cases hr : r.route = ""
      · rw [hr]; rfl
      · simp [strOrElse, hr]
    refine ⟨?_, ?_, ?_⟩ <;>
      simp only [processGraph, executeRouterStage, executeSpecializedAgentStage,
        saveIfReportCandidateOnce_false, executeRouter,
        executeSpecializedAgent, createInitialState, hname, hreg, hrun,
        handleSpecializedAgentError, Option.isSome_none, Bool.false_eq_true,
        if_false, if_true, Option.isSome_some]
  · intro input e routerRun agentRun ingest ftime msR msA msC
    rfl

def c6wRouterOut : RouterOut :=
  ⟨"notification", "notification.schedule", none, none, none,
   ⟨"scheduled", [], none, none⟩⟩

/-- C6 witness: the three boundaries at concrete inputs — a router throw,
a handler throw for a resolvable route, and a top-level throw. -/
theorem graph_error_boundaries_witness :
    ((processGraph ⟨"u3", "s3", "hi", none⟩ none (.error "rb")
        (fun _ => .ok ⟨"ok", [], none, none⟩) true (fun _ => 0) 1 2 3).error
      = some "Router error: rb")
    ∧ ((processGraph ⟨"u3", "s3", "hi", none⟩ none (.ok c6wRouterOut)
        (fun _ => .error "agent down") false (fun _ => 0) 1 2 3).error
      = some "Agent execution error in notification: agent down")
    ∧ ((processGraph ⟨"u3", "s3", "hi", none⟩ none (.ok c6wRouterOut)
        (fun _ => .error "agent down") false (fun _ => 0) 1 2 3).finalOutput
      = some c6wRouterOut.output)
    ∧ (processGraph ⟨"u3", "s3", "hi", none⟩ (some "top") (.error "rb")
        (fun _ => .ok ⟨"ok", [], none, none⟩) false (fun _ => 0) 1 2 3
      = { createInitialState ⟨"u3", "s3", "hi", none⟩ with
          error := some "Processing error: top"
          finalOutput := some
            { reply := "I\x27m sorry, I encountered an error. Please try again."
              actions := [⟨"error", "failed", none⟩]
              sharedData := none
              usageTotalTokens := none } }) :=
  ⟨(graph_error_boundaries.1 ⟨"u3", "s3", "hi", none⟩ "rb" true
      (fun _ => .ok ⟨"ok", [], none, none⟩) (fun _ => 0) 1 2 3).1,
   (graph_error_boundaries.2.1 ⟨"u3", "s3", "hi", none⟩ c6wRouterOut
      "agent down" (fun _ => .error "agent down") (fun _ => 0) 1 2 3
      (by rfl) (by rfl)).1,
   (graph_error_boundaries.2.1 ⟨"u3", "s3", "hi", none⟩ c6wRouterOut
      "agent down" (fun _ => .error "agent down") (fun _ => 0) 1 2 3
      (by rfl) (by rfl)).2.2,
   graph_error_boundaries.2.2 ⟨"u3", "s3", "hi", none⟩ "top" (.error "rb")
      (fun _ => .ok ⟨"ok", [], none, none⟩) false (fun _ => 0) 1 2 3⟩

/-! ## C7: plan matching for cancel/update without an id -/

theorem insertCandDesc_perm (c : Cand) (l : List Cand) :
    (insertCandDesc c l).Perm (c :: l) := by
  induction l with
  | nil => exact List.Perm.refl _
  | cons x xs ih =>
    unfold insertCandDesc
    split
    · exact List.Perm.refl _
    · exact (ih.cons x).trans (List.Perm.swap c x xs)

theorem sortCandsDesc_perm (l : List Cand) : (sortCandsDesc l).Perm l := by
  induction l with
  | nil => exact List.Perm.refl _
  | cons c cs ih => exact (insertCandDesc_perm c (sortCandsDesc cs)).trans (ih.cons c)

theorem sortCandsDesc_length (l : List Cand) :
    (sortCandsDesc l).length = l.length :=
  (sortCandsDesc_perm l).length_eq

/-- A stable descending sort of an all-equal-score list is the identity. -/
theorem sortCandsDesc_const (n : Nat) :
    ∀ l : List Cand, (∀ x ∈ l, x.score = n) → sortCandsDesc l = l := by
  intro l
  induction l with
  | nil => intro _; rfl
  | cons c cs ih =>
    intro h
    have hcs : sortCandsDesc cs = cs := ih (fun x hx => h x (List.mem_cons_of_mem c hx))
    show insertCandDesc c (sortCandsDesc cs) = c :: cs
    rw [hcs]
    cases cs with
    | nil => rfl
    | cons x xs =>
      show (if c.score ≥ x.score then c :: x :: xs else x :: insertCandDesc c xs)
        = c :: x :: xs
      rw [if_pos ?_]
      rw [h c (List.mem_cons_self _ _), h x (by simp)]

def c7PlanA : PlanRec := ⟨some "a", none, some "2025-07-05T00:00:00.000Z", none⟩

def c7PlanB : PlanRec := ⟨some "b", none, some "2025-07-05T00:00:00.000Z", none⟩

/-- C7 counterexample: for the utterance `"change 7/3"` (a date token, no
scheduling vocabulary) and two candidate plans that both score `0`, the two
candidates tie for the top score, yet the matcher returns the first plan as
a unique match instead of rejecting as ambiguous — the source lifts a
zero-scoring top candidate to `0.5` before the tie check. -/
theorem findMatchingPlan_zero_tie_matches_first :
    (rankCandidates "change 7/3" (scanDateTokens "change 7/3".data)
      [c7PlanA, c7PlanB]).map (fun c => c.score) = [0, 0]
    ∧ findMatchingPlan "change 7/3" (.ok [c7PlanA, c7PlanB])
      = .okMatch "a" c7PlanA :=
  ⟨by rfl, by rfl⟩

/-- C7 (amended): with no date token in the utterance the matcher rejects
as not-found even when candidates exist; with a date token and an all-zero
scoring (no exact month/day hit, no vocabulary bonus) the top candidate is
lifted to `0.5` and returned as a unique match — the first candidate in
plan order, by sort stability; a tie is rejected as ambiguous only when the
top score is non-zero and at least one other candidate shares it. -/
theorem findMatchingPlan_characterization (utterance : String)
    (plans : List PlanRec) (c : Cand) (rest : List Cand) :
    (scanDateTokens utterance.data = [] →
      findMatchingPlan utterance (.ok plans) = .notFound)
    ∧ ((plans.map (candScore utterance (scanDateTokens utterance.data))).filter
        (fun x => x.cid.isSome) = c :: rest →
      (∀ x ∈ c :: rest, x.score = 0) →
      scanDateTokens utterance.data ≠ [] →
      findMatchingPlan utterance (.ok plans)
        = .okMatch (c.cid.getD "") c.plan)
    ∧ (rankCandidates utterance (scanDateTokens utterance.data) plans
        = c :: rest →
      c.score ≠ 0 →
      1 < ((c :: rest).filter (fun x => x.score = c.score)).length →
      scanDateTokens utterance.data ≠ [] →
      findMatchingPlan utterance (.ok plans)
        = .ambiguous (((c :: rest).filter
            (fun x => x.score = c.score)).take 3)) := by
  refine ⟨?_, ?_, ?_⟩
  · intro hmds
    cases plans with
    | nil => rfl
    | cons p ps =>
      simp only [findMatchingPlan, List.isEmpty_cons, Bool.false_eq_true,
        if_false]
      rw [hmds]
      split
      · rfl
      · simp
  · intro hfilter hzero hmds
    have hmdsb : (scanDateTokens utterance.data).isEmpty = false := by
      cases hm : scanDateTokens utterance.data with
      | nil => exact absurd hm hmds
      | cons a as => rfl
    cases hpl : plans with
    | nil =>
      rw [hpl] at hfilter
      exact absurd hfilter (by simp)
    | cons p ps =>
      have hrank : rankCandidates utterance (scanDateTokens utterance.data)
          (p :: ps) = c :: rest := by
        unfold rankCandidates
        rw [hpl] at hfilter
        rw [hfilter]
        exact sortCandsDesc_const 0 (c :: rest) hzero
      have hties : (({ c with score := 5 } : Cand) :: rest).filter
          (fun x => x.score = ({ c with score := 5 } : Cand).score)
          = [{ c with score := 5 }] := by
        rw [List.filter_cons, if_pos (by simp)]
        rw [List.filter_eq_nil_iff.mpr ?_]
        intro x hx
        have := hzero x (List.mem_cons_of_mem c hx)
        simp [this]
      simp only [findMatchingPlan, List.isEmpty_cons, Bool.false_eq_true,
        if_false, hrank, hmdsb]
      rw [if_pos (hzero c (List.mem_cons_self _ _))]
      rw [hties]
      rfl
  · intro hrank hne htie hmds
    have hmdsb : (scanDateTokens utterance.data).isEmpty = false := by
      cases hm : scanDateTokens utterance.data with
      | nil => exact absurd hm hmds
      | cons a as => rfl
    cases hpl : plans with
    | nil =>
      rw [hpl] at hrank
      exact absurd hrank (by simp [rankCandidates, sortCandsDesc])
    | cons p ps =>
      rw [hpl] at hrank
      simp only [findMatchingPlan, List.isEmpty_cons, Bool.false_eq_true,
        if_false, hrank, hmdsb]
      rw [if_neg hne]
      show (if ((c :: rest).filter (fun x => x.score = c.score)).length > 1
          then FindResult.ambiguous (((c :: rest).filter
            (fun x => x.score = c.score)).take 3)
          else FindResult.okMatch (c.cid.getD "") c.plan)
        = .ambiguous (((c :: rest).filter (fun x => x.score = c.score)).take 3)
      rw [if_pos htie]

def c7wPlanC : PlanRec := ⟨some "c", none, some "2025-08-09T01:00:00.000Z", none⟩

def c7wPlanD : PlanRec := ⟨some "d", none, some "2025-08-09T02:00:00.000Z", none⟩

/-- C7 witness: the three amended behaviours at concrete utterances and
plans — no date token; all-zero scores returning the first plan; a genuine
non-zero tie rejected as ambiguous. -/
theorem findMatchingPlan_characterization_witness :
    findMatchingPlan "cancel it" (.ok [c7wPlanC, c7wPlanD]) = .notFound
    ∧ findMatchingPlan "change 1/2" (.ok [c7wPlanC, c7wPlanD])
      = .okMatch "c" c7wPlanC
    ∧ findMatchingPlan "change my booking on 8/9" (.ok [c7wPlanC, c7wPlanD])
      = .ambiguous [⟨some "c", c7wPlanC, 11⟩, ⟨some "d", c7wPlanD, 11⟩] := by
  refine ⟨?_, ?_, ?_⟩
  · exact (findMatchingPlan_characterization "cancel it" [c7wPlanC, c7wPlanD]
      ⟨none, c7wPlanC, 0⟩ []).1 (by rfl)
  · exact (findMatchingPlan_characterization "change 1/2" [c7wPlanC, c7wPlanD]
      (candScore "change 1/2" (scanDateTokens "change 1/2".data) c7wPlanC)
      [candScore "change 1/2" (scanDateTokens "change 1/2".data) c7wPlanD]).2.1
      (by rfl) (by decide) (by decide)
  · exact (findMatchingPlan_characterization "change my booking on 8/9"
      [c7wPlanC, c7wPlanD] ⟨some "c", c7wPlanC, 11⟩
      [⟨some "d", c7wPlanD, 11⟩]).2.2 (by rfl) (by decide)
      (by decide) (by decide)

/-! ## C5: natural-language schedule inference -/

/-- `setHours(h, m, 0, 0)` lands inside the local day of `b` or later, so
it is within a day of `b`. -/
theorem jsSetHMS0_gt (off b h m : Int) (hh : 0 ≤ h) (hm : 0 ≤ m) :
    b - 86400000 < jsSetHMS0 off b h m := by
  simp only [jsSetHMS0, msPerDay, msPerHour, msPerMinute]
  omega

/-- `extractTime` keeps the local day of its base (or moves forward), so
its result is within a day of the base. -/
theorem extractTime_gt (off b : Int) (g : TimeGroups) :
    b - 86400000 < extractTime off (some g) b := by
  rcases g with ⟨hr, mins, mer⟩
  simp only [extractTime, jsSetHours, jsSetMinutes, jsSetSecondsZero,
    msPerDay, msPerHour, msPerMinute]
  rcases mins with _ | mv <;>
    rcases mer with _ | mm <;>
    first
      | (simp only [Option.getD_none, Option.getD_some]; omega)
      | (rcases mm <;> simp only [Option.getD_none, Option.getD_some] <;> omega)

/-- `nextWeekday` is at least one local calendar day ahead. -/
theorem nextWeekday_lb (off now : Int) (w : Nat) :
    now + 86400000 ≤ nextWeekday off now (w : Int) := by
  simp only [nextWeekday, jsGetDay, msPerDay]
  split <;> omega

/-- The fallback branch of `pickSchedule` as a function of the inference
result (proof-local abbreviation of the shape shared by the `now` and
missing-schedule branches). -/
def inferPick (now : Int) (o : Option Int) : SchedulePick :=
  match o with
  | some t =>
    if t > now then
      ⟨some (isoOfMillis t), none,
       ["Natural language schedule inferred from utterance."]⟩
    else ⟨some (isoOfMillis now), none, []⟩
  | none => ⟨some (isoOfMillis now), none, []⟩

theorem inferPick_repeat (now : Int) (o : Option Int) :
    (inferPick now o).repeatSpec = none := by
  cases o with
  | none => rfl
  | some t =>
    show SchedulePick.repeatSpec (if t > now then _ else _) = none
    split
    · rfl
    · rfl

theorem inferPick_some_gt {now t : Int} (h : t > now) :
    (inferPick now (some t)).scheduleAt = some (isoOfMillis t) := by
  simp only [inferPick]
  rw [if_pos h]

theorem inferPick_some_le {now t : Int} (h : ¬t > now) :
    (inferPick now (some t)).scheduleAt = some (isoOfMillis now) := by
  simp only [inferPick]
  rw [if_neg h]

/-- C5: when the parsed schedule is missing or `now`, `pickSchedule` never
produces a repeat spec and resolves `scheduleAt` by scanning the utterance
in priority order — `tomorrow [at TIME]` (09:00 local when no time is
captured), `in N minutes|hours|days` (`now + N`), `next <weekday> [at
TIME]` (09:00 default), a bare `at TIME` (today if still in the future,
else the next day) — and falls back to `now` when nothing matches. -/
theorem schedule_nl_inference (off now : Int) (i : NotificationIntent)
    (ctx : PolicyCtx) (tz : String)
    (hsched : i.schedule = none ∨ i.schedule = some .now) :
    ((pickSchedule off now i tz ctx).repeatSpec = none)
    ∧ (scanWord "tomorrow".data none (ctx.inputMessage.data.map Char.toLower)
        = true →
      scanTime none (ctx.inputMessage.data.map Char.toLower) = none →
      (pickSchedule off now i tz ctx).scheduleAt
        = some (isoOfMillis (jsSetHMS0 off (now + msPerDay) 9 0)))
    ∧ (scanWord "tomorrow".data none (ctx.inputMessage.data.map Char.toLower)
        = true →
      ∀ g, scanTime none (ctx.inputMessage.data.map Char.toLower) = some g →
      (pickSchedule off now i tz ctx).scheduleAt
        = some (isoOfMillis (extractTime off (some g) (now + msPerDay))))
    ∧ (scanWord "tomorrow".data none (ctx.inputMessage.data.map Char.toLower)
        = false →
      ∀ n u, scanRel none (ctx.inputMessage.data.map Char.toLower)
        = some (n, u) →
      (pickSchedule off now i tz ctx).scheduleAt
        = some (isoOfMillis (now + (n : Int) *
            (match u with
             | .minute => msPerMinute
             | .hour => msPerHour
             | .day => msPerDay))))
    ∧ (scanWord "tomorrow".data none (ctx.inputMessage.data.map Char.toLower)
        = false →
      scanRel none (ctx.inputMessage.data.map Char.toLower) = none →
      ∀ w, scanNextWeekday none (ctx.inputMessage.data.map Char.toLower)
        = some w →
      (pickSchedule off now i tz ctx).scheduleAt
        = some (isoOfMillis
          (match scanTime none (ctx.inputMessage.data.map Char.toLower) with
           | some g => extractTime off (some g) (nextWeekday off now (w : Int))
           | none => jsSetHMS0 off (nextWeekday off now (w : Int)) 9 0)))
    ∧ (scanWord "tomorrow".data none (ctx.inputMessage.data.map Char.toLower)
        = false →
      scanRel none (ctx.inputMessage.data.map Char.toLower) = none →
      scanNextWeekday none (ctx.inputMessage.data.map Char.toLower) = none →
      ∀ g, scanTime none (ctx.inputMessage.data.map Char.toLower) = some g →
      (pickSchedule off now i tz ctx).scheduleAt
        = some (isoOfMillis
          (if extractTime off (some g) now > now then
            extractTime off (some g) now
          else extractTime off (some g) (now + msPerDay))))
    ∧ (scanWord "tomorrow".data none (ctx.inputMessage.data.map Char.toLower)
        = false →
      scanRel none (ctx.inputMessage.data.map Char.toLower) = none →
      scanNextWeekday none (ctx.inputMessage.data.map Char.toLower) = none →
      scanTime none (ctx.inputMessage.data.map Char.toLower) = none →
      (pickSchedule off now i tz ctx).scheduleAt
        = some (isoOfMillis now)) := by
  have hps : pickSchedule off now i tz ctx
      = inferPick now (inferDateTimeFromMessage off now ctx.inputMessage) := by
    rcases hsched with h | h <;> simp only [pickSchedule, h, inferPick]
  refine ⟨?_, ?_, ?_, ?_, ?_, ?_, ?_⟩
  · rw [hps]
    exact inferPick_repeat now _
  · intro htom htm
    have hinf : inferDateTimeFromMessage off now ctx.inputMessage
        = some (jsSetHMS0 off (now + msPerDay) 9 0) := by
      simp only [inferDateTimeFromMessage, htom, htm, if_true]
    have hgt : jsSetHMS0 off (now + msPerDay) 9 0 > now := by
      have := jsSetHMS0_gt off (now + msPerDay) 9 0 (by norm_num) (by norm_num)
      simp only [msPerDay] at this ⊢
      omega
    rw [hps, hinf, inferPick_some_gt hgt]
  · intro htom g htm
    have hinf : inferDateTimeFromMessage off now ctx.inputMessage
        = some (extractTime off (some g) (now + msPerDay)) := by
      simp only [inferDateTimeFromMessage, htom, htm, if_true]
    have hgt : extractTime off (some g) (now + msPerDay) > now := by
      have := extractTime_gt off (now + msPerDay) g
      simp only [msPerDay] at this ⊢
      omega
    rw [hps, hinf, inferPick_some_gt hgt]
  · intro htom n u hrel
    rcases u with _ | _ | _
    · have hinf : inferDateTimeFromMessage off now ctx.inputMessage
          = some (now + (n : Int) * msPerMinute) := by
        simp only [inferDateTimeFromMessage, htom, hrel, Bool.false_eq_true,
          if_false]
      rw [hps, hinf]
      by_cases hpos : now + (n : Int) * msPerMinute > now
      · rw [inferPick_some_gt hpos]
      · rw [inferPick_some_le hpos]
        have heq : now + (n : Int) * msPerMinute = now := by
          simp only [msPerMinute] at hpos ⊢
          omega
        rw [heq]
    · have hinf : inferDateTimeFromMessage off now ctx.inputMessage
          = some (now + (n : Int) * msPerHour) := by
        simp only [inferDateTimeFromMessage, htom, hrel, Bool.false_eq_true,
          if_false]
      rw [hps, hinf]
      by_cases hpos : now + (n : Int) * msPerHour > now
      · rw [inferPick_some_gt hpos]
      · rw [inferPick_some_le hpos]
        have heq : now + (n : Int) * msPerHour = now := by
          simp only [msPerHour] at hpos ⊢
          omega
        rw [heq]
    · have hinf : inferDateTimeFromMessage off now ctx.inputMessage
          = some (now + (n : Int) * msPerDay) := by
        simp only [inferDateTimeFromMessage, htom, hrel, Bool.false_eq_true,
          if_false]
      rw [hps, hinf]
      by_cases hpos : now + (n : Int) * msPerDay > now
      · rw [inferPick_some_gt hpos]
      · rw [inferPick_some_le hpos]
        have heq : now + (n : Int) * msPerDay = now := by
          simp only [msPerDay] at hpos ⊢
          omega
        rw [heq]
  · intro htom hrel w hw
    cases htm : scanTime none (ctx.inputMessage.data.map Char.toLower) with
    | none =>
      have hinf : inferDateTimeFromMessage off now ctx.inputMessage
          = some (jsSetHMS0 off (nextWeekday off now (w : Int)) 9 0) := by
        simp only [inferDateTimeFromMessage, htom, hrel, hw, htm,
          Bool.false_eq_true, if_false]
      have hgt : jsSetHMS0 off (nextWeekday off now (w : Int)) 9 0 > now := by
        have h1 := jsSetHMS0_gt off (nextWeekday off now (w : Int)) 9 0
          (by norm_num) (by norm_num)
        have h2 := nextWeekday_lb off now w
        omega
      rw [hps, hinf, inferPick_some_gt hgt]
    | some g =>
      have hinf : inferDateTimeFromMessage off now ctx.inputMessage
          = some (extractTime off (some g) (nextWeekday off now (w : Int))) := by
        simp only [inferDateTimeFromMessage, htom, hrel, hw, htm,
          Bool.false_eq_true, if_false]
      have hgt : extractTime off (some g) (nextWeekday off now (w : Int))
          > now := by
        have h1 := extractTime_gt off (nextWeekday off now (w : Int)) g
        have h2 := nextWeekday_lb off now w
        omega
      rw [hps, hinf, inferPick_some_gt hgt]
  · intro htom hrel hwd g htm
    have hinf : inferDateTimeFromMessage off now ctx.inputMessage
        = (if extractTime off (some g) now > now then
            some (extractTime off (some g) now)
          else some (extractTime off (some g) (now + msPerDay))) := by
      simp only [inferDateTimeFromMessage, htom, hrel, hwd, htm,
        Bool.false_eq_true, if_false]
    by_cases hc : extractTime off (some g) now > now
    · rw [hps, hinf, if_pos hc, if_pos hc, inferPick_some_gt hc]
    · have hgt : extractTime off (some g) (now + msPerDay) > now := by
        have := extractTime_gt off (now + msPerDay) g
        simp only [msPerDay] at this ⊢
        omega
      rw [hps, hinf, if_neg hc, if_neg hc, inferPick_some_gt hgt]
  · intro htom hrel hwd htm
    have hinf : inferDateTimeFromMessage off now ctx.inputMessage = none := by
      simp only [inferDateTimeFromMessage, htom, hrel, hwd, htm,
        Bool.false_eq_true, if_false]
    rw [hps, hinf]
    rfl

def c5wIntent : NotificationIntent :=
  ⟨"remind", "sms", [], some .now, none, some "x", [], none⟩

def c5Now : Int := 1760265600000

/-- C5 witness: the inference priorities at concrete utterances —
`tomorrow` with no time (09:00 default), `tomorrow at 7pm`, `in 15
minutes`, `next friday` (09:00 default), a bare `at 7pm`, and a
pattern-free utterance falling back to `now` with no repeat spec. -/
theorem schedule_nl_inference_witness :
    (pickSchedule 0 c5Now c5wIntent "UTC"
        ⟨"UTC", "remind me tomorrow", none⟩).scheduleAt
      = some (isoOfMillis (jsSetHMS0 0 (c5Now + msPerDay) 9 0))
    ∧ (pickSchedule 0 c5Now c5wIntent "UTC"
        ⟨"UTC", "tomorrow at 7pm", none⟩).scheduleAt
      = some (isoOfMillis (extractTime 0 (some ⟨7, none, some .pm⟩)
          (c5Now + msPerDay)))
    ∧ (pickSchedule 0 c5Now c5wIntent "UTC"
        ⟨"UTC", "in 15 minutes", none⟩).scheduleAt
      = some (isoOfMillis (c5Now + ((15 : Nat) : Int) * msPerMinute))
    ∧ (pickSchedule 0 c5Now c5wIntent "UTC"
        ⟨"UTC", "next friday", none⟩).scheduleAt
      = some (isoOfMillis (jsSetHMS0 0 (nextWeekday 0 c5Now ((5 : Nat) : Int)) 9 0))
    ∧ (pickSchedule 0 c5Now c5wIntent "UTC"
        ⟨"UTC", "at 7pm", none⟩).scheduleAt
      = some (isoOfMillis
          (if extractTime 0 (some ⟨7, none, some .pm⟩) c5Now > c5Now then
            extractTime 0 (some ⟨7, none, some .pm⟩) c5Now
          else extractTime 0 (some ⟨7, none, some .pm⟩) (c5Now + msPerDay)))
    ∧ (pickSchedule 0 c5Now c5wIntent "UTC"
        ⟨"UTC", "take your meds", none⟩).scheduleAt
      = some (isoOfMillis c5Now)
    ∧ (pickSchedule 0 c5Now c5wIntent "UTC"
        ⟨"UTC", "take your meds", none⟩).repeatSpec = none :=
  ⟨(schedule_nl_inference 0 c5Now c5wIntent ⟨"UTC", "remind me tomorrow", none⟩
      "UTC" (Or.inr rfl)).2.1 (by rfl) (by rfl),
   (schedule_nl_inference 0 c5Now c5wIntent ⟨"UTC", "tomorrow at 7pm", none⟩
      "UTC" (Or.inr rfl)).2.2.1 (by rfl) ⟨7, none, some .pm⟩ (by rfl),
   (schedule_nl_inference 0 c5Now c5wIntent ⟨"UTC", "in 15 minutes", none⟩
      "UTC" (Or.inr rfl)).2.2.2.1 (by rfl) 15 .minute (by rfl),
   (schedule_nl_inference 0 c5Now c5wIntent ⟨"UTC", "next friday", none⟩
      "UTC" (Or.inr rfl)).2.2.2.2.1 (by rfl) (by rfl) 5 (by rfl),
   (schedule_nl_inference 0 c5Now c5wIntent ⟨"UTC", "at 7pm", none⟩
      "UTC" (Or.inr rfl)).2.2.2.2.2.1 (by rfl) (by rfl) (by rfl)
      ⟨7, none, some .pm⟩ (by rfl),
   (schedule_nl_inference 0 c5Now c5wIntent ⟨"UTC", "take your meds", none⟩
      "UTC" (Or.inr rfl)).2.2.2.2.2.2 (by rfl) (by rfl) (by rfl) (by rfl),
   (schedule_nl_inference 0 c5Now c5wIntent ⟨"UTC", "take your meds", none⟩
      "UTC" (Or.inr rfl)).1⟩

end MedicAgent
